import Mathlib

/-!
Verification of `simple_file_handler` (a Python file-handling convenience
class) against its natural-language specification.

The development shallowly embeds `src/simple_file_handler/handler.py`:

* the filesystem is a finite association list from absolute paths to file
  contents;
* file contents are lists of chunks: raw text written through the plain
  handle, and structured documents written through the format codecs
  (json / csv / yaml / toml / pickle).  The external serialisation
  libraries (`json`, `csv`, `yaml`, `toml`, `pickle`) are not part of the
  repository, so their encode/decode behaviour is modelled from the spec
  at the value level (a written document reads back as the same value;
  decoding fails when the file does not hold exactly one document of the
  right format);
* a `FileHandler` session carries the absolute path, encoding, the
  optional open handle (mode string, closed flag, stream position) and
  the `created_file` flag, exactly mirroring the Python attributes;
* Python exceptions become an explicit error type, with the repository's
  `FileError` carrying its message.
-/

set_option autoImplicit false

deriving instance DecidableEq for Except

namespace SFH

/-! ### String and path helpers (modelling `os.path` as used by `handler.py`) -/

/-- Does the string contain the character? -/
def strContains (s : String) (c : Char) : Bool := s.data.contains c

/-- `str.lower()`. -/
def strLower (s : String) : String := ⟨s.data.map Char.toLower⟩

/-- `str.replace('\\', '')`: drop every backslash. -/
def stripBackslashes (s : String) : String := ⟨s.data.filter (fun c => c ≠ '\\')⟩

/-- `os.path.basename`: the part of the path after the last slash. -/
def pathBasename (p : String) : String :=
  ⟨(p.data.reverse.takeWhile (fun c => c ≠ '/')).reverse⟩

/-- `os.path.dirname`: the part of the path before the last slash. -/
def pathDirname (p : String) : String :=
  ⟨((p.data.reverse.dropWhile (fun c => c ≠ '/')).drop 1).reverse⟩

/-- `os.path.splitext` on a basename, as character lists.  The extension
starts at the last dot, provided some non-dot character of the basename
precedes it; the dot belongs to the extension. -/
def splitExtChars (b : List Char) : List Char × List Char :=
  match b.reverse.span (fun c => c ≠ '.') with
  | (_, []) => (b, [])
  | (revExt, _ :: revRoot) =>
    if revRoot.any (fun c => c ≠ '.') then
      (revRoot.reverse, '.' :: revExt.reverse)
    else (b, [])

/-- `os.path.splitext` on a full path: `(root, ext)` with `root ++ ext = p`. -/
def pathSplitExt (p : String) : String × String :=
  let b := (pathBasename p).data
  let d := p.data.take (p.data.length - b.length)
  let (r, e) := splitExtChars b
  (⟨d ++ r⟩, ⟨e⟩)

/-- `os.path.join` for the directory/filename shapes the handler builds. -/
def pathJoin (d f : String) : String := d ++ "/" ++ f

/-- `str.removeprefix('.')`. -/
def stripDot (s : String) : String :=
  match s.data with
  | '.' :: rest => ⟨rest⟩
  | _ => s

/-- `int(s)` on a string: optional sign followed by at least one digit
(whitespace handling is irrelevant to the inputs the handler sees).
Returns `none` where Python raises `ValueError`. -/
def parseIntS (s : String) : Option Int :=
  let digits (cs : List Char) : Option Nat :=
    if cs.isEmpty then none
    else if cs.all Char.isDigit then
      some (cs.foldl (fun a c => a * 10 + (c.toNat - '0'.toNat)) 0)
    else none
  match s.data with
  | '-' :: rest => (digits rest).map (fun n => -(n : Int))
  | '+' :: rest => (digits rest).map (fun n => (n : Int))
  | cs => (digits cs).map (fun n => (n : Int))

/-! ### Values, chunks, filesystem -/

/-- Structured Python values moved through the format codecs: strings,
integers, lists and (insertion-ordered) string-keyed dicts. -/
inductive Value where
  | str (s : String)
  | int (n : Int)
  | list (xs : List Value)
  | map (kvs : List (String × Value))

mutual

def Value.decEq : (a b : Value) → Decidable (a = b)
  | .str s, .str t =>
    if h : s = t then isTrue (by rw [h]) else isFalse (fun hh => h (by injection hh))
  | .int m, .int n =>
    if h : m = n then isTrue (by rw [h]) else isFalse (fun hh => h (by injection hh))
  | .list xs, .list ys =>
    match Value.decEqList xs ys with
    | isTrue h => isTrue (by rw [h])
    | isFalse h => isFalse (fun hh => h (by injection hh))
  | .map xs, .map ys =>
    match Value.decEqMap xs ys with
    | isTrue h => isTrue (by rw [h])
    | isFalse h => isFalse (fun hh => h (by injection hh))
  | .str _, .int _ => isFalse (fun h => nomatch h)
  | .str _, .list _ => isFalse (fun h => nomatch h)
  | .str _, .map _ => isFalse (fun h => nomatch h)
  | .int _, .str _ => isFalse (fun h => nomatch h)
  | .int _, .list _ => isFalse (fun h => nomatch h)
  | .int _, .map _ => isFalse (fun h => nomatch h)
  | .list _, .str _ => isFalse (fun h => nomatch h)
  | .list _, .int _ => isFalse (fun h => nomatch h)
  | .list _, .map _ => isFalse (fun h => nomatch h)
  | .map _, .str _ => isFalse (fun h => nomatch h)
  | .map _, .int _ => isFalse (fun h => nomatch h)
  | .map _, .list _ => isFalse (fun h => nomatch h)

def Value.decEqList : (a b : List Value) → Decidable (a = b)
  | [], [] => isTrue rfl
  | [], _ :: _ => isFalse (fun h => nomatch h)
  | _ :: _, [] => isFalse (fun h => nomatch h)
  | x :: xs, y :: ys =>
    match Value.decEq x y, Value.decEqList xs ys with
    | isTrue h1, isTrue h2 => isTrue (by rw [h1, h2])
    | isFalse h1, _ => isFalse (fun h => h1 (by injection h))
    | _, isFalse h2 => isFalse (fun h => h2 (by injection h))

def Value.decEqMap : (a b : List (String × Value)) → Decidable (a = b)
  | [], [] => isTrue rfl
  | [], _ :: _ => isFalse (fun h => nomatch h)
  | _ :: _, [] => isFalse (fun h => nomatch h)
  | (k, v) :: xs, (l, w) :: ys =>
    if h0 : k = l then
      match Value.decEq v w, Value.decEqMap xs ys with
      | isTrue h1, isTrue h2 => isTrue (by rw [h0, h1, h2])
      | isFalse h1, _ =>
        isFalse (fun h => by injection h with h3 h4; exact h1 (congrArg Prod.snd h3))
      | _, isFalse h2 => isFalse (fun h => h2 (by injection h))
    else
      isFalse (fun h => by injection h with h3 h4; exact h0 (congrArg Prod.fst h3))

end

instance : DecidableEq Value := Value.decEq

/-- One unit of on-disk file content.  `raw` is plain text written through
the handle; the other constructors are documents produced by the format
codecs.  Modelled from the spec: the external libraries serialise a value
into text/bytes and parse it back; the chunk stands for that serialised
document. -/
inductive Chunk where
  | raw (s : String)
  | jsonDoc (v : Value)
  | yamlDoc (v : Value)
  | tomlDoc (v : Value)
  | csvDoc (rows : List (List String))
  | pickleObj (v : Value)
deriving DecidableEq

/-- The filesystem: a finite map from absolute file paths to contents.
Directories are implicit (every mapped path is a regular file, and
`os.makedirs` on a parent is a no-op in the model). -/
structure FS where
  files : List (String × List Chunk)
deriving DecidableEq

def getL : List (String × List Chunk) → String → Option (List Chunk)
  | [], _ => none
  | (q, d) :: t, p => if q = p then some d else getL t p

def setL : List (String × List Chunk) → String → List Chunk → List (String × List Chunk)
  | [], p, c => [(p, c)]
  | (q, d) :: t, p, c => if q = p then (p, c) :: t else (q, d) :: setL t p c

def eraseL : List (String × List Chunk) → String → List (String × List Chunk)
  | [], _ => []
  | (q, d) :: t, p => if q = p then t else (q, d) :: eraseL t p

/-- `os.path.exists` / `os.path.isfile` (every entry is a regular file). -/
def FS.exists (fs : FS) (p : String) : Bool := (getL fs.files p).isSome

def FS.get (fs : FS) (p : String) : Option (List Chunk) := getL fs.files p

def FS.set (fs : FS) (p : String) (c : List Chunk) : FS := ⟨setL fs.files p c⟩

def FS.erase (fs : FS) (p : String) : FS := ⟨eraseL fs.files p⟩

/-! ### Errors -/

/-- The Python exceptions the handler can raise.  The repository's own
`FileError` carries its message; built-in exceptions are bare tags. -/
inductive PyErr where
  | typeError
  | valueError
  | attributeError
  | fileNotFoundError
  | fileExistsError
  | fileError (msg : String)
deriving DecidableEq

/-! ### Rendering chunks back to text

Modelled from the spec: each codec serialises its document into text; the
exact characters only matter for raw chunks (plain `file.write` output),
which render verbatim.  Sizes of files are rendered lengths. -/

mutual

def valueText : Value → String
  | .str s => s
  | .int n => toString n
  | .list xs => "[" ++ valueTextList xs ++ "]"
  | .map kvs => "(" ++ valueTextMap kvs ++ ")"

def valueTextList : List Value → String
  | [] => ""
  | [x] => valueText x
  | x :: xs => valueText x ++ ", " ++ valueTextList xs

def valueTextMap : List (String × Value) → String
  | [] => ""
  | [(k, v)] => k ++ ": " ++ valueText v
  | (k, v) :: kvs => k ++ ": " ++ valueText v ++ ", " ++ valueTextMap kvs

end

def rowText (r : List String) : String := String.intercalate "," r

def renderChunk : Chunk → String
  | .raw s => s
  | .jsonDoc v => valueText v
  | .yamlDoc v => valueText v ++ "\n"
  | .tomlDoc v => valueText v ++ "\n"
  | .csvDoc rows => String.intercalate "\n" (rows.map rowText) ++ "\n"
  | .pickleObj v => valueText v

def renderChunks (cs : List Chunk) : String :=
  String.join (cs.map renderChunk)

/-- `os.path.getsize`, in characters of the rendered content. -/
def FS.sizeOfFile (fs : FS) (p : String) : Nat :=
  match fs.get p with
  | some c => (renderChunks c).length
  | none => 0

/-! ### The session object -/

/-- The open handle stored in `FileHandler._file`: its mode string, its
`closed` flag, and the stream position measured in chunks of the file's
content (reads consume chunks; appends move the position to the end). -/
structure Handle where
  mode : String
  closed : Bool
  pos : Nat
deriving DecidableEq

/-- The `FileHandler` object: mirrors the Python attributes `_file`,
`created_file`, `filepath`, `encoding`, `allow_any`.  `filepath` is kept
absolute by construction (the model takes `os.path.abspath` as the
identity, so all concrete paths used below are written absolute). -/
structure FileHandler where
  file : Option Handle
  created_file : Bool
  filepath : String
  encoding : String
  allow_any : Bool
deriving DecidableEq

namespace FileHandler

/-- The `closed` property as a Bool: `self.file and self.file.closed`
(`None` is falsy, so a session that never opened reports not-closed). -/
def closedB (h : FileHandler) : Bool :=
  match h.file with
  | none => false
  | some hd => hd.closed

/-- The `file_mode` property: `None` if `_file` is `None`. -/
def fileMode (h : FileHandler) : Option String :=
  h.file.map (fun hd => hd.mode)

/-- The `filename` property: basename with backslashes removed. -/
def filename (h : FileHandler) : String :=
  stripBackslashes (pathBasename h.filepath)

/-- The `file_basename` property: filename without its extension. -/
def file_basename (h : FileHandler) : String :=
  (pathSplitExt (h.filename)).1

/-- The `file_ext` property: the filename's extension, with the dot. -/
def file_ext (h : FileHandler) : String :=
  (pathSplitExt (h.filename)).2

/-- The `file_dir` property. -/
def file_dir (h : FileHandler) : String :=
  pathDirname h.filepath

end FileHandler

/-- The `filetype` computation on a path: lowercased extension without the
dot, with the `yml`/`yaml` and `pkl`/`pickle` aliases folded. -/
def pathFiletype (p : String) : String :=
  let t := strLower (stripDot (pathSplitExt p).2)
  if t = "yaml" ∨ t = "yml" then "yaml"
  else if t = "pickle" ∨ t = "pkl" then "pickle"
  else t

/-- The `filetype` property. -/
def FileHandler.filetype (h : FileHandler) : String :=
  pathFiletype h.filepath

/-- `FileHandler.supported_types()`. -/
def supportedTypes : List String :=
  ["txt", "doc", "docx", "pdf", "html", "htm", "xml",
   "js", "css", "md", "json", "csv", "yaml", "yml",
   "toml", "pickle", "pkl", "log", "xht", "xhtml", "shtml"]

/-- The mode strings Python's `open` accepts, in the canonical order the
handler passes them (any other string makes `open` raise, which
`open_file` wraps into `FileError`). -/
def validModes : List String :=
  ["r", "rb", "r+", "rb+", "w", "wb", "w+", "wb+",
   "a", "ab", "a+", "ab+", "x", "xb", "x+", "xb+"]

/-- The effect of the built-in `open(path, mode)` on the filesystem:
`w` truncates (creating the file), `a` creates if missing and positions
at the end, `r` requires the file, `x` requires its absence.  Returns the
new filesystem and the initial stream position. -/
def pyOpen (fs : FS) (p : String) (mode : String) : Except PyErr (FS × Nat) :=
  if mode ∉ validModes then .error .valueError
  else if strContains mode 'w' then .ok (fs.set p [], 0)
  else if strContains mode 'a' then
    let c := (fs.get p).getD []
    .ok (fs.set p c, c.length)
  else if strContains mode 'x' then
    if fs.exists p then .error .fileExistsError else .ok (fs.set p [], 0)
  else
    match fs.get p with
    | some _ => .ok (fs, 0)
    | none => .error .fileNotFoundError

namespace FileHandler

/-- `close_file`: marks the handle closed if one is open; idempotent. -/
def closeFileH (h : FileHandler) : FileHandler :=
  match h.file with
  | none => h
  | some hd => if hd.closed then h else { h with file := some { hd with closed := true } }

/-- `open_file(mode)`: lowercases the mode; a no-op when the handle is not
closed and already has exactly that mode; otherwise closes and reopens,
wrapping any `open` failure into `FileError("File cannot be opened.")`. -/
def openFile (h : FileHandler) (fs : FS) (mode : String) : Except PyErr (FileHandler × FS) :=
  let mode := strLower mode
  if h.closedB = false ∧ h.fileMode = some mode then .ok (h, fs)
  else
    let h := h.closeFileH
    match pyOpen fs h.filepath mode with
    | .ok (fs, pos) => .ok ({ h with file := some ⟨mode, false, pos⟩ }, fs)
    | .error _ => .error (.fileError "File cannot be opened.")

end FileHandler

/-- Appending text written through the raw handle.  All write modes the
handler reaches have the stream position at the end of the file ( `w`
truncates on open, `a` positions at the end, and `r`-modes are rejected
for writes), so a raw `file.write` extends the content; consecutive raw
writes merge into one raw chunk, and writing `""` changes nothing. -/
def chunksAppendRaw (c : List Chunk) (s : String) : List Chunk :=
  if s.data.isEmpty then c
  else
    match c.reverse with
    | Chunk.raw t :: rest => (Chunk.raw (t ++ s) :: rest).reverse
    | _ => c ++ [Chunk.raw s]

namespace FileHandler

/-- `self.file.write(s)` for text `s`: `AttributeError` when `_file` is
`None`, `ValueError` on a closed handle, `TypeError` when the handle was
opened in a binary mode (CPython refuses `str` writes on a `b`-mode
stream), otherwise append. -/
def writeRawS (h : FileHandler) (fs : FS) (s : String) : Except PyErr (FileHandler × FS) :=
  match h.file with
  | none => .error .attributeError
  | some hd =>
    if hd.closed then .error .valueError
    else if strContains hd.mode 'b' then .error .typeError
    else
      let c := (fs.get h.filepath).getD []
      let c' := chunksAppendRaw c s
      .ok ({ h with file := some { hd with pos := c'.length } }, fs.set h.filepath c')

/-- A library writing one serialised document through the handle where
the library manages the stream encoding itself (`pickle.dump` writes
bytes to the handle `_write_pickle` has just forced into `ab+`;
`yaml.dump` is handed the handler's `encoding=` and encodes the document
before writing).  Modelled from the spec at the value level, so no
text/binary check is made here; document writes that go through a plain
`f.write(str)` use `writeTextDoc` below instead. -/
def writeDocC (h : FileHandler) (fs : FS) (ck : Chunk) : Except PyErr (FileHandler × FS) :=
  match h.file with
  | none => .error .attributeError
  | some hd =>
    if hd.closed then .error .valueError
    else
      let c := (fs.get h.filepath).getD []
      let c' := c ++ [ck]
      .ok ({ h with file := some { hd with pos := c'.length } }, fs.set h.filepath c')

/-- One serialised document written through the handle as text — an
`f.write(str)` call, either literally in `handler.py` (`_write_json`'s
`self.file.write(_json)`) or inside the library (`toml.dump` writes
`toml.dumps(o)`, `csv.writer` writes its rendered rows): the same
text/binary check as `writeRawS` (`TypeError` on a `b`-mode handle),
then the document is appended. -/
def writeTextDoc (h : FileHandler) (fs : FS) (ck : Chunk) : Except PyErr (FileHandler × FS) :=
  match h.file with
  | none => .error .attributeError
  | some hd =>
    if hd.closed then .error .valueError
    else if strContains hd.mode 'b' then .error .typeError
    else
      let c := (fs.get h.filepath).getD []
      let c' := c ++ [ck]
      .ok ({ h with file := some { hd with pos := c'.length } }, fs.set h.filepath c')

/-- `self.file.read()`: the rendered text of everything after the stream
position; moves the position to the end. -/
def readRawS (h : FileHandler) (fs : FS) : Except PyErr (Value × FileHandler × FS) :=
  match h.file with
  | none => .error .attributeError
  | some hd =>
    if hd.closed then .error .valueError
    else
      let c := (fs.get h.filepath).getD []
      let s := renderChunks (c.drop hd.pos)
      .ok (Value.str s, { h with file := some { hd with pos := c.length } }, fs)

/-- `clear_file`: remembers `closed`/`file_mode`, opens in `w`, writes the
empty string, and reopens in the remembered mode when the session was not
closed (`open_file(None)` would raise when there never was a handle). -/
def clearFile (h : FileHandler) (fs : FS) : Except PyErr (FileHandler × FS) := do
  let wasClosed := h.closedB
  let ogMode := h.fileMode
  let (h, fs) ← h.openFile fs "w"
  let (h, fs) ← h.writeRawS fs ""
  if wasClosed then .ok (h, fs)
  else
    match ogMode with
    | some m => h.openFile fs m
    | none => .error .attributeError

/-- `delete_file`: a warning and no state change when the file is absent;
otherwise close, remove from disk and null the handle.  The source's
`self.file_path = None` hits a never-read attribute (the real attribute
is `filepath`), so the path survives deletion. -/
def deleteFile (h : FileHandler) (fs : FS) : Except PyErr (FileHandler × FS) :=
  if fs.exists h.filepath = false then .ok (h, fs)
  else
    let h := h.closeFileH
    .ok ({ h with file := none }, fs.erase h.filepath)

/-- `_read_json` / `_read_yaml` / `_read_toml`: the remaining stream must
hold exactly one document that `sel` accepts; every internal failure is
wrapped into `FileError emsg` by the method's `except Exception`. -/
def readSingleDoc (h : FileHandler) (fs : FS) (sel : Chunk → Option Value) (emsg : String) :
    Except PyErr (Value × FileHandler × FS) :=
  match h.file with
  | none => .error (.fileError emsg)
  | some hd =>
    if hd.closed then .error (.fileError emsg)
    else
      let c := (fs.get h.filepath).getD []
      match c.drop hd.pos with
      | [ck] =>
        match sel ck with
        | some v => .ok (v, { h with file := some { hd with pos := c.length } }, fs)
        | none => .error (.fileError emsg)
      | _ => .error (.fileError emsg)

/-- `_read_csv`: the rows of the remaining csv documents, `[]` for an
empty file.  (Raw text in a `.csv` file would be split by the csv reader;
no handler path writes raw text into a `.csv` session, so the model
reports the wrapped `FileError` there.) -/
def readCsvC (h : FileHandler) (fs : FS) : Except PyErr (Value × FileHandler × FS) :=
  let emsg := "csv file could not be read."
  match h.file with
  | none => .error (.fileError emsg)
  | some hd =>
    if hd.closed then .error (.fileError emsg)
    else
      let c := (fs.get h.filepath).getD []
      let rest := c.drop hd.pos
      if rest.all (fun ck => match ck with | Chunk.csvDoc _ => true | _ => false) then
        let rows := rest.foldr
          (fun ck acc => match ck with | Chunk.csvDoc rs => rs ++ acc | _ => acc) []
        .ok (Value.list (rows.map (fun r => Value.list (r.map Value.str))),
             { h with file := some { hd with pos := c.length } }, fs)
      else .error (.fileError emsg)

/-- `_read_pickle`: reopens in `rb+` inside the `try`, then `pickle.load`
decodes the first serialised object after the position and advances past
it; every failure is wrapped into the pickle `FileError`. -/
def readPickleC (h : FileHandler) (fs : FS) : Except PyErr (Value × FileHandler × FS) :=
  let emsg := "pickle file could not be loaded."
  match h.openFile fs "rb+" with
  | .error _ => .error (.fileError emsg)
  | .ok (h, fs) =>
    match h.file with
    | none => .error (.fileError emsg)
    | some hd =>
      let c := (fs.get h.filepath).getD []
      match c.drop hd.pos with
      | Chunk.pickleObj v :: _ =>
        .ok (v, { h with file := some { hd with pos := hd.pos + 1 } }, fs)
      | _ => .error (.fileError emsg)

/-- `_write_json`: `TypeError` unless the content is a dict; then (inside
a `try` that wraps failures into `FileError`) clears the file and writes
the full serialised mapping via `self.file.write(_json)` — a `str`
write, so it raises (and the `except` wraps) when the handle is in a
binary mode. -/
def writeJsonC (h : FileHandler) (fs : FS) (content : Value) : Except PyErr (FileHandler × FS) :=
  match content with
  | Value.map kvs =>
    match
      (do
        let (h, fs) ← h.clearFile fs
        h.writeTextDoc fs (Chunk.jsonDoc (Value.map kvs))) with
    | .ok r => .ok r
    | .error _ => .error (.fileError "File cannot be written into.")
  | _ => .error .typeError

/-- `str()` of a csv cell. -/
def cellText : Value → String
  | .str s => s
  | v => valueText v

/-- The rows `csv.writer.writerows` accepts from the model's values: a
list of list rows with cells stringified.  (Python would iterate a string
row character-wise and raise on non-iterable rows; no claim reaches
either, and the model reports `TypeError` there.) -/
def rowsOf : List Value → Option (List (List String))
  | [] => some []
  | Value.list cells :: rest => (rowsOf rest).map (fun rs => cells.map cellText :: rs)
  | _ => none

/-- `_write_csv`: `TypeError` unless the content is a list/tuple/set;
rows are written as one csv document with line terminator `\n` —
`csv.writer` writes `str` data through the handle, hence a text write. -/
def writeCsvC (h : FileHandler) (fs : FS) (content : Value) : Except PyErr (FileHandler × FS) :=
  match content with
  | Value.list rows =>
    match rowsOf rows with
    | some rs => h.writeTextDoc fs (Chunk.csvDoc rs)
    | none => .error .typeError
  | _ => .error .typeError

/-- `_write_pickle`: forces the handle into `ab+` and appends one
serialised object. -/
def writePickleC (h : FileHandler) (fs : FS) (content : Value) : Except PyErr (FileHandler × FS) := do
  let (h, fs) ← h.openFile fs "ab+"
  h.writeDocC fs (Chunk.pickleObj content)

/-- `_write_toml`: `toml.dump` serialises a dict and writes the `str`
result through the handle (a text write); on a non-dict the library
raises `TypeError` while iterating/indexing the object, which nothing
catches (`_write_content` only catches `AttributeError`). -/
def writeTomlC (h : FileHandler) (fs : FS) (content : Value) : Except PyErr (FileHandler × FS) :=
  match content with
  | Value.map kvs => h.writeTextDoc fs (Chunk.tomlDoc (Value.map kvs))
  | _ => .error .typeError

/-- The raw-write fallback of `_write_content`: `self.file.write(content)`
accepts text only. -/
def writeRawV (h : FileHandler) (fs : FS) (content : Value) : Except PyErr (FileHandler × FS) :=
  match content with
  | Value.str s => h.writeRawS fs s
  | _ => .error .typeError

/-- `_write_content`: dispatch on `filetype` to the `_write_<type>`
method, falling back to a raw write when no such method exists. -/
def writeContent (h : FileHandler) (fs : FS) (content : Value) : Except PyErr (FileHandler × FS) :=
  match h.filetype with
  | "json" => h.writeJsonC fs content
  | "csv" => h.writeCsvC fs content
  | "yaml" => h.writeDocC fs (Chunk.yamlDoc content)
  | "toml" => h.writeTomlC fs content
  | "pickle" => h.writePickleC fs content
  | _ => h.writeRawV fs content

/-- `read_file(read_mode)`: rejects non-empty modes containing a
write/append/create marker, rejects unsupported extensions unless
`allow_any`, then opens in the requested mode and dispatches to the
`_read_<type>` method, falling back to a raw `file.read()`. -/
def readFile (h : FileHandler) (fs : FS) (mode : String) : Except PyErr (Value × FileHandler × FS) :=
  let m := strLower mode
  if m.data.isEmpty = false ∧ (strContains m 'w' ∨ strContains m 'a' ∨ strContains m 'x') then
    .error (.fileError ("Invalid read mode: " ++ m))
  else if h.filetype ∈ supportedTypes ∨ h.allow_any = true then do
    let (h, fs) ← h.openFile fs m
    match h.filetype with
    | "json" =>
      readSingleDoc h fs
        (fun ck => match ck with | Chunk.jsonDoc v => some v | _ => none)
        "JSON file could not be loaded"
    | "csv" => h.readCsvC fs
    | "yaml" =>
      readSingleDoc h fs
        (fun ck => match ck with | Chunk.yamlDoc v => some v | _ => none)
        "yaml file could not be loaded."
    | "toml" =>
      readSingleDoc h fs
        (fun ck => match ck with | Chunk.tomlDoc v => some v | _ => none)
        "toml file could not be loaded."
    | "pickle" => h.readPickleC fs
    | _ => h.readRawS fs
  else .error (.fileError "Unsupported File Type")

/-- The `file_content` property: `read_file('r')`. -/
def fileContent (h : FileHandler) (fs : FS) : Except PyErr (Value × FileHandler × FS) :=
  h.readFile fs "r"

/-- `write_to_file(content, write_mode)`: rejects non-empty modes
containing a read/create marker, rejects unsupported extensions unless
`allow_any`, then opens in the requested mode and dispatches. -/
def writeToFile (h : FileHandler) (fs : FS) (content : Value) (mode : String) :
    Except PyErr (FileHandler × FS) :=
  let m := strLower mode
  if m.data.isEmpty = false ∧ (strContains m 'r' ∨ strContains m 'x') then
    .error (.fileError ("Invalid write mode: " ++ m))
  else if h.filetype ∈ supportedTypes ∨ h.allow_any = true then do
    let (h, fs) ← h.openFile fs m
    h.writeContent fs content
  else .error (.fileError "Unsupported File Type")

end FileHandler

/-- `FileHandler.__init__`: creates parent directories and an empty file
when the path is absent and `not_found_ok` holds, raises
`FileNotFoundError` / `FileExistsError` as configured, finally opens the
file in `a+` so the session is immediately usable.  (`os.path.abspath`
is the identity in the model — concrete paths below are absolute — and
the `isfile` guard never fires because every filesystem entry is a
regular file.) -/
def mkFileHandler (fs : FS) (filepath : String) (encoding : String)
    (notFoundOk existsOk allowAny : Bool) : Except PyErr (FileHandler × FS) :=
  if fs.exists filepath = false then
    if notFoundOk = false then .error .fileNotFoundError
    else
      let fs := fs.set filepath []
      let h : FileHandler := ⟨none, true, filepath, encoding, allowAny⟩
      h.openFile fs "a+"
  else if existsOk = false then .error .fileExistsError
  else
    let h : FileHandler := ⟨none, false, filepath, encoding, allowAny⟩
    h.openFile fs "a+"

/-- First value bound to a key in an association list. -/
def lookupS : List (String × Value) → String → Option Value
  | [], _ => none
  | (k, v) :: t, q => if k = q then some v else lookupS t q

/-- Python `dict.update` on insertion-ordered dicts: existing keys keep
their place and take the new value, unseen keys are appended in order. -/
def dictUpdate (old new : List (String × Value)) : List (String × Value) :=
  old.map (fun kv => match lookupS new kv.1 with | some v => (kv.1, v) | none => kv)
    ++ new.filter (fun kv => (lookupS old kv.1).isNone)

namespace FileHandler

/-- `update_json(content)`: JSON-only; reads the existing mapping under a
bare `except` that treats any failure as `{}`, merges with dict-update
semantics, and rewrites the whole file in mode `w`.  On a read failure
the handle keeps the state the failed `read_file` left behind — its only
mutation before raising is `open_file("r+")` (or just the `close_file`
inside it when even that open failed), which the error branches below
replay.  A successful read of a non-dict hits `.update` and raises
`AttributeError`. -/
def updateJson (h : FileHandler) (fs : FS) (content : List (String × Value)) :
    Except PyErr (FileHandler × FS) :=
  if h.filetype = "json" then
    match h.readFile fs "r+" with
    | .ok (Value.map old, h, fs) =>
      h.writeToFile fs (Value.map (dictUpdate old content)) "w"
    | .ok (_, _, _) => .error .attributeError
    | .error _ =>
      match h.openFile fs "r+" with
      | .ok (h, fs) => h.writeToFile fs (Value.map (dictUpdate [] content)) "w"
      | .error _ => (h.closeFileH).writeToFile fs (Value.map (dictUpdate [] content)) "w"
  else .error (.fileError "update_json cannot be used with this file type")

end FileHandler

/-! ### Copying -/

/-- The suffix variable of `make_copy` after `int(suffix)` was attempted:
an integer when parsing succeeded, otherwise the original string. -/
inductive Sfx where
  | int (n : Int)
  | str (s : String)
deriving DecidableEq

def Sfx.text : Sfx → String
  | .int n => toString n
  | .str s => s

/-- One collision step on the suffix: integers are incremented, strings
get `_<c>` appended, `c` being the loop counter at that iteration. -/
def Sfx.bump : Sfx → Nat → Sfx
  | .int n, _ => .int (n + 1)
  | .str s, c => .str (s ++ "_" ++ toString c)

/-- The suffix state after `i` collisions of the loop. -/
def Sfx.iter (s : Sfx) : Nat → Sfx
  | 0 => s
  | i + 1 => (s.iter i).bump (i + 1)

/-- The `while already_exists` loop of `make_copy`, entered with counter
`c` (initially 0) and given explicit fuel; on a finite filesystem the
candidate names are pairwise distinct, so enough fuel always exists. -/
def copyLoop (fs : FS) (dest base ext : String) (sfx : Sfx) (c : Nat) : Nat → Option String
  | 0 => none
  | fuel + 1 =>
    let c := c + 1
    let fname := base ++ "_" ++ sfx.text ++ ext
    let fp := pathJoin dest fname
    if fs.exists fp then copyLoop fs dest base ext (sfx.bump c) c fuel
    else some fp

namespace FileHandler

/-- `make_copy(destination, filename, suffix)`: rejects extension-bearing
destinations and filenames, parses the suffix, rejects non-positive
numeric suffixes, resolves name collisions with `copyLoop`, constructs
the destination session with `exists_ok=False`, and copies the content
by a full `read_file()` / `write_to_file(.., 'w+')` through the format
dispatcher, closing the copy's handle before returning it.  The internal
read reopens the source handle in `r+`, so the updated source session is
returned alongside the copy. -/
def makeCopy (h : FileHandler) (fs : FS) (destination : String)
    (filename : Option String) (suffix : String) (fuel : Nat) :
    Except PyErr (FileHandler × FileHandler × FS) :=
  if (pathSplitExt destination).2 ≠ "" then
    .error (.fileError "Destination cannot be a file")
  else
    match
      ((match filename with
        | some f =>
          if f.data.isEmpty then .ok (none : Option String)
          else
            let f := stripBackslashes f
            if (pathSplitExt f).2 ≠ "" then
              .error (PyErr.fileError "filename cannot have an extension")
            else .ok (some (f ++ h.file_ext))
        | none => .ok none) : Except PyErr (Option String)) with
    | .error e => .error e
    | .ok fname? =>
      let sfx := match parseIntS suffix with
        | some n => Sfx.int n
        | none => Sfx.str suffix
      if (match sfx with | Sfx.int n => decide (n < 1) | Sfx.str _ => false) then
        .error .valueError
      else
        let first := pathJoin destination (fname?.getD h.filename)
        let fullPath? :=
          if fs.exists first then
            let be := match fname? with
              | none => (h.file_basename, h.file_ext)
              | some f => pathSplitExt f
            copyLoop fs destination be.1 be.2 sfx 0 fuel
          else some first
        match fullPath? with
        | none => .error (.fileError "loop did not terminate within fuel")
        | some fullPath => do
          let (dst, fs) ← mkFileHandler fs fullPath h.encoding true false false
          let (content, hSelf, fs) ← h.readFile fs "r+"
          let (dst, fs) ← dst.writeToFile fs content "w+"
          .ok (hSelf, dst.closeFileH, fs)

end FileHandler

/-! ### Concrete traces and claim-level definitions -/

/-- The eight mode strings Python's `open` accepts that `write_to_file`
does not reject. -/
def writeModes : List String := ["w", "wb", "w+", "wb+", "a", "ab", "a+", "ab+"]

/-- The handle after `close_file`, as a function of the old handle. -/
def hdClose : Option Handle → Option Handle
  | none => none
  | some hd => if hd.closed then some hd else some ⟨hd.mode, true, hd.pos⟩

/-- A `.txt` session written in mode `w`, then cleared: the pre-clear
mode is exactly `w`, so `clear_file`'s `open_file('w')` is a no-op and
nothing is truncated. -/
def clearTraceW : Except PyErr (Option String × Value × Nat) := do
  let (h, fs) ← mkFileHandler ⟨[]⟩ "/d/t.txt" "utf-8" true true false
  let (h, fs) ← h.writeToFile fs (.str "hello") "w"
  let (h, fs) ← h.clearFile fs
  let m := h.fileMode
  let (v, h, fs) ← h.fileContent fs
  pure (m, v, fs.sizeOfFile h.filepath)

/-- A closed `.txt` session cleared: the pre- and post-clear modes. -/
def clearTraceClosed : Except PyErr (Option String × Option String) := do
  let (h, fs) ← mkFileHandler ⟨[]⟩ "/d/t.txt" "utf-8" true true false
  let h := h.closeFileH
  let before := h.fileMode
  let (h, _) ← h.clearFile fs
  pure (before, h.fileMode)

/-- A fresh `.json` session cleared, then read through `file_content`. -/
def clearTraceJson : Except PyErr Value := do
  let (h, fs) ← mkFileHandler ⟨[]⟩ "/d/t.json" "utf-8" true true false
  let (h, fs) ← h.clearFile fs
  let (v, _, _) ← h.fileContent fs
  pure v

/-- A session holding a create-exclusive (`x`) handle, cleared. -/
def clearTraceX : Except PyErr (FileHandler × FS) :=
  (FileHandler.mk (some ⟨"x", false, 0⟩) false "/d/t.txt" "utf-8" false).clearFile
    ⟨[("/d/t.txt", [])]⟩

/-- The test mapping `{"test": "123", "check": "ok"}`. -/
def sampleMap : Value := Value.map [("test", .str "123"), ("check", .str "ok")]

/-- The test rows `[["test", "check"], ["123", "ok"]]`. -/
def sampleRows : Value :=
  Value.list [Value.list [.str "test", .str "check"], Value.list [.str "123", .str "ok"]]

/-- The test pickle payload `{"test": 123, "check": "ok"}`. -/
def samplePickle : Value := Value.map [("test", .int 123), ("check", .str "ok")]

/-- Write `content` to a fresh session on `path` with the default write
mode, then read it back through `file_content`, as the repository's
round-trip tests do. -/
def writeReadTrip (path : String) (content : Value) : Except PyErr Value := do
  let (h, fs) ← mkFileHandler ⟨[]⟩ path "utf-8" true true false
  let (h, fs) ← h.writeToFile fs content "a+"
  let (v, _, _) ← h.fileContent fs
  pure v

/-- Copy of `/d/t.txt` into its own directory `/d` with no filename. -/
def copyOwnDirTrace : Except PyErr (String × Bool) := do
  let (h, fs) ← mkFileHandler ⟨[]⟩ "/d/t.txt" "utf-8" true true false
  let (_, dst, fs) ← h.makeCopy fs "/d" none "1" 10
  pure (dst.filepath, fs.exists "/d/t_1.txt")

/-- Delete an existing `.txt` file, then delete again: reports the final
session's `filepath`, its nulled handle, whether the file still exists,
and the result of the second (idempotent) delete. -/
def deleteTrace : Except PyErr (String × Option Handle × Bool × String) := do
  let (h, fs) ← mkFileHandler ⟨[]⟩ "/d/t.txt" "utf-8" true true false
  let (h, fs) ← h.deleteFile fs
  let e := fs.exists "/d/t.txt"
  let (h2, _) ← h.deleteFile fs
  pure (h.filepath, h.file, e, h2.filepath)

/-- The candidate the copy loop actually builds at its `i`-th iteration:
`base_<suffix after i collisions><ext>` joined onto the destination. -/
def codeCandidates (dest base ext : String) (s0 : Sfx) (i : Nat) : String :=
  pathJoin dest (base ++ "_" ++ (s0.iter i).text ++ ext)

/-- The suffix sequence as the claim words it: a numeric suffix is
incremented; a string suffix gets an incrementing counter `_1`, `_2`, …
appended to the **original** suffix. -/
def claimSuffixText : Sfx → Nat → String
  | .int n, i => toString (n + (i : Int))
  | .str s, 0 => s
  | .str s, i + 1 => s ++ "_" ++ toString (i + 1)

/-- The candidate sequence the claim describes. -/
def claimCandidates (dest base ext : String) (s0 : Sfx) (i : Nat) : String :=
  pathJoin dest (base ++ "_" ++ claimSuffixText s0 i ++ ext)

/-- First unused name in a candidate sequence, per the claim. -/
def firstUnused (fs : FS) (f : Nat → String) (i : Nat) : Nat → Option String
  | 0 => none
  | fuel + 1 => if fs.exists (f i) then firstUnused fs f (i + 1) fuel else some (f i)

/-- A directory where `t.txt`, `t_copy.txt` and `t_copy_1.txt` exist. -/
def collisionFS : FS := ⟨[("/d/t.txt", []), ("/d/t_copy.txt", []), ("/d/t_copy_1.txt", [])]⟩

/-- Copy with string suffix `"copy"` in `collisionFS`. -/
def copyStringSuffixTrace : Except PyErr String := do
  let h : FileHandler := ⟨some ⟨"a+", false, 0⟩, false, "/d/t.txt", "utf-8", false⟩
  let (_, dst, _) ← h.makeCopy collisionFS "/d" none "copy" 10
  pure dst.filepath

/-- Two consecutive json writes in mode `w` on a fresh `.json` session. -/
def jsonDoubleWTrace : Except PyErr (Option (List Chunk)) := do
  let (h, fs) ← mkFileHandler ⟨[]⟩ "/d/t.json" "utf-8" true true false
  let (h, fs) ← h.writeToFile fs sampleMap "w"
  let (_, fs) ← h.writeToFile fs (Value.map [("b", .str "2")]) "w"
  pure (fs.get "/d/t.json")

/-- The write modes that open a text handle. -/
def textWriteModes : List String := ["w", "w+", "a", "a+"]

/-- The write modes that open a binary handle. -/
def binWriteModes : List String := ["wb", "wb+", "ab", "ab+"]

/-- A json write of a mapping requested in the binary mode `wb`, on a
session holding a previous document. -/
def jsonWbTrace : Except PyErr (FileHandler × FS) :=
  (FileHandler.mk (some ⟨"a+", false, 0⟩) false "/d/t.json" "utf-8" false).writeToFile
    ⟨[("/d/t.json", [Chunk.jsonDoc sampleMap])]⟩ (Value.map [("b", .str "2")]) "wb"

/-! ### Helper lemmas -/

theorem FS.get_set_same (fs : FS) (p : String) (c : List Chunk) :
    (fs.set p c).get p = some c := by
  unfold FS.get FS.set
  induction fs.files with
  | nil => simp [getL, setL]
  | cons hd t ih =>
    obtain ⟨q, d⟩ := hd
    by_cases h : q = p <;> simp [getL, setL, h, ih]

theorem FS.exists_set_same (fs : FS) (p : String) (c : List Chunk) :
    (fs.set p c).exists p = true := by
  unfold FS.exists
  rw [show getL (fs.set p c).files p = (fs.set p c).get p from rfl, FS.get_set_same]
  rfl

theorem FS.set_set (fs : FS) (p : String) (c d : List Chunk) :
    (fs.set p c).set p d = fs.set p d := by
  unfold FS.set
  obtain ⟨files⟩ := fs
  simp only [FS.mk.injEq]
  induction files with
  | nil => simp [setL]
  | cons hd t ih =>
    obtain ⟨q, e⟩ := hd
    by_cases h : q = p
    · subst h; simp [setL]
    · simp [setL, h, ih]

theorem bindOk {α β : Type} (a : α) (f : α → Except PyErr β) :
    (Bind.bind (Except.ok a) f : Except PyErr β) = f a := rfl

theorem bindErr {α β : Type} (e : PyErr) (f : α → Except PyErr β) :
    (Bind.bind (Except.error e) f : Except PyErr β) = .error e := rfl

theorem strContains_ne_nil {s : String} {c : Char} (h : strContains s c = true) :
    s.data.isEmpty = false := by
  unfold strContains at h
  cases hd : s.data with
  | nil => rw [hd] at h; simp [List.contains] at h
  | cons a t => simp [List.isEmpty]

/-- Every mode string `open` accepts is already lowercase. -/
theorem strLower_valid {m : String} (hm : m ∈ validModes) : strLower m = m := by
  simp only [validModes, List.mem_cons, List.not_mem_nil, or_false] at hm
  rcases hm with rfl | rfl | rfl | rfl | rfl | rfl | rfl | rfl | rfl | rfl | rfl | rfl | rfl |
    rfl | rfl | rfl <;> decide

/-- Opening a freshly truncated file in any non-`x` valid mode keeps the
content empty and positions the stream at 0. -/
theorem pyOpen_on_cleared (fs : FS) (p m : String) (hm : m ∈ validModes)
    (hx : strContains m 'x' = false) :
    pyOpen (fs.set p []) p m = .ok (fs.set p [], 0) := by
  simp only [validModes, List.mem_cons, List.not_mem_nil, or_false] at hm
  rcases hm with rfl | rfl | rfl | rfl | rfl | rfl | rfl | rfl | rfl | rfl | rfl | rfl | rfl |
    rfl | rfl | rfl <;>
    first
      | exact absurd hx (by decide)
      | simp [pyOpen, FS.get_set_same, FS.set_set, validModes, strContains]

/-- Reopening in `w` from a handle open in any other mode truncates. -/
theorem openFile_to_w (fs : FS) (p enc m : String) (pos : Nat) (cf aa : Bool) (hw : m ≠ "w") :
    (FileHandler.mk (some ⟨m, false, pos⟩) cf p enc aa).openFile fs "w"
      = .ok (FileHandler.mk (some ⟨"w", false, 0⟩) cf p enc aa, fs.set p []) := by
  unfold FileHandler.openFile
  rw [if_neg]
  · rfl
  · intro hcond
    exact hw (by simpa [FileHandler.fileMode] using hcond.2)

/-- Reopening a handle open on a just-cleared file in another valid
non-create mode: the file stays empty and the stream moves to 0. -/
theorem openFile_on_cleared (fs : FS) (p enc m₀ m : String) (pos₀ : Nat) (cf aa : Bool)
    (hm : m ∈ validModes) (hx : strContains m 'x' = false) (hne : m₀ ≠ m) :
    (FileHandler.mk (some ⟨m₀, false, pos₀⟩) cf p enc aa).openFile (fs.set p []) m
      = .ok (FileHandler.mk (some ⟨m, false, 0⟩) cf p enc aa, fs.set p []) := by
  unfold FileHandler.openFile
  rw [strLower_valid hm, if_neg]
  · simp only [FileHandler.closeFileH]
    simp only [Bool.false_eq_true, if_false]
    rw [pyOpen_on_cleared fs p m hm hx]
  · intro hcond
    have h2 := hcond.2
    simp [FileHandler.fileMode] at h2
    exact hne h2

/-- Writing the empty string to the cleared handle changes nothing. -/
theorem writeRawS_cleared (fs : FS) (p enc : String) (cf aa : Bool) :
    (FileHandler.mk (some ⟨"w", false, 0⟩) cf p enc aa).writeRawS (fs.set p []) ""
      = .ok (FileHandler.mk (some ⟨"w", false, 0⟩) cf p enc aa, fs.set p []) := by
  unfold FileHandler.writeRawS
  simp [chunksAppendRaw, FS.get_set_same, FS.set_set,
    show strContains "w" 'b' = false from by decide]

/-- `clear_file` on a session whose handle is open in a valid non-`w`,
non-create mode: the content is truncated and the mode restored with the
stream at position 0. -/
theorem clearFile_open (fs : FS) (p enc m : String) (pos : Nat) (cf aa : Bool)
    (hm : m ∈ validModes) (hx : strContains m 'x' = false) (hw : m ≠ "w") :
    (FileHandler.mk (some ⟨m, false, pos⟩) cf p enc aa).clearFile fs
      = .ok (FileHandler.mk (some ⟨m, false, 0⟩) cf p enc aa, fs.set p []) := by
  unfold FileHandler.clearFile
  simp only [openFile_to_w fs p enc m pos cf aa hw, bindOk,
    writeRawS_cleared fs p enc cf aa, FileHandler.closedB, FileHandler.fileMode,
    Option.map_some]
  simp only [Bool.false_eq_true, if_false]
  exact openFile_on_cleared fs p enc "w" m 0 cf aa hm hx (fun hh => hw hh.symm)

/-- Opening a handle that sits at position 0 of a just-cleared file in any
valid non-create mode leaves an open handle at position 0 (a no-op when
the mode already matches, a reopen otherwise — same outcome). -/
theorem openFile_cleared_any (fs : FS) (p enc m₀ m : String) (cf aa : Bool)
    (hm : m ∈ validModes) (hx : strContains m 'x' = false) :
    (FileHandler.mk (some ⟨m₀, false, 0⟩) cf p enc aa).openFile (fs.set p []) m
      = .ok (FileHandler.mk (some ⟨m, false, 0⟩) cf p enc aa, fs.set p []) := by
  by_cases hne : m₀ = m
  · subst hne
    unfold FileHandler.openFile
    rw [strLower_valid hm, if_pos ⟨rfl, rfl⟩]
  · exact openFile_on_cleared fs p enc m₀ m 0 cf aa hm hx hne

/-- A raw `file.read()` on a just-cleared file returns the empty string. -/
theorem readRawS_cleared (fs : FS) (p enc m : String) (cf aa : Bool) :
    (FileHandler.mk (some ⟨m, false, 0⟩) cf p enc aa).readRawS (fs.set p [])
      = .ok (Value.str "", FileHandler.mk (some ⟨m, false, 0⟩) cf p enc aa, fs.set p []) := by
  unfold FileHandler.readRawS
  simp [FS.get_set_same, renderChunks, String.join]

/-- `file_content` (a `read_file('r')`) on a just-cleared file of a raw
(no-codec) supported-or-allowed filetype returns the empty string. -/
theorem fileContent_cleared (fs : FS) (p enc m : String) (cf aa : Bool)
    (hsup : pathFiletype p ∈ supportedTypes ∨ aa = true)
    (hraw : pathFiletype p ∉ (["json", "csv", "yaml", "toml", "pickle"] : List String)) :
    (FileHandler.mk (some ⟨m, false, 0⟩) cf p enc aa).fileContent (fs.set p [])
      = .ok (Value.str "", FileHandler.mk (some ⟨"r", false, 0⟩) cf p enc aa, fs.set p []) := by
  unfold FileHandler.fileContent FileHandler.readFile
  rw [if_neg (by decide)]
  dsimp only [FileHandler.filetype]
  rw [if_pos hsup, show strLower "r" = "r" from rfl]
  simp only [openFile_cleared_any fs p enc m "r" cf aa (by decide) (by decide), bindOk]
  split
  · next heq => exact absurd (by simp [heq]) hraw
  · next heq => exact absurd (by simp [heq]) hraw
  · next heq => exact absurd (by simp [heq]) hraw
  · next heq => exact absurd (by simp [heq]) hraw
  · next heq => exact absurd (by simp [heq]) hraw
  · exact readRawS_cleared fs p enc "r" cf aa

theorem writeModes_sub_valid {m : String} (hm : m ∈ writeModes) : m ∈ validModes := by
  simp only [writeModes, List.mem_cons, List.not_mem_nil, or_false] at hm
  rcases hm with rfl | rfl | rfl | rfl | rfl | rfl | rfl | rfl <;> decide

theorem writeModes_no_x {m : String} (hm : m ∈ writeModes) : strContains m 'x' = false := by
  simp only [writeModes, List.mem_cons, List.not_mem_nil, or_false] at hm
  rcases hm with rfl | rfl | rfl | rfl | rfl | rfl | rfl | rfl <;> decide

/-- A write mode passes `write_to_file`'s invalid-mode check. -/
theorem writeModes_check {m : String} (hm : m ∈ writeModes) :
    ¬(m.data.isEmpty = false ∧
      (strContains m 'r' = true ∨ strContains m 'x' = true)) := by
  simp only [writeModes, List.mem_cons, List.not_mem_nil, or_false] at hm
  rcases hm with rfl | rfl | rfl | rfl | rfl | rfl | rfl | rfl <;> decide

theorem textWriteModes_sub {m : String} (hm : m ∈ textWriteModes) : m ∈ writeModes := by
  simp only [textWriteModes, List.mem_cons, List.not_mem_nil, or_false] at hm
  rcases hm with rfl | rfl | rfl | rfl <;> decide

theorem textWriteModes_no_b {m : String} (hm : m ∈ textWriteModes) :
    strContains m 'b' = false := by
  simp only [textWriteModes, List.mem_cons, List.not_mem_nil, or_false] at hm
  rcases hm with rfl | rfl | rfl | rfl <;> decide

theorem binWriteModes_sub {m : String} (hm : m ∈ binWriteModes) : m ∈ writeModes := by
  simp only [binWriteModes, List.mem_cons, List.not_mem_nil, or_false] at hm
  rcases hm with rfl | rfl | rfl | rfl <;> decide

theorem binWriteModes_b {m : String} (hm : m ∈ binWriteModes) :
    strContains m 'b' = true := by
  simp only [binWriteModes, List.mem_cons, List.not_mem_nil, or_false] at hm
  rcases hm with rfl | rfl | rfl | rfl <;> decide

/-- `open_file` is a no-op when the handle is open in exactly the
requested (valid, hence lowercase) mode. -/
theorem openFile_noop (h : FileHandler) (fs : FS) (m : String) (hv : m ∈ validModes)
    (hno : h.closedB = false ∧ h.fileMode = some m) :
    h.openFile fs m = .ok (h, fs) := by
  unfold FileHandler.openFile
  rw [strLower_valid hv, if_pos hno]

theorem closeFileH_filepath (h : FileHandler) : h.closeFileH.filepath = h.filepath := by
  unfold FileHandler.closeFileH
  rcases h.file with _ | hd
  · rfl
  · dsimp only
    split <;> rfl

theorem closeFileH_created (h : FileHandler) : h.closeFileH.created_file = h.created_file := by
  unfold FileHandler.closeFileH
  rcases h.file with _ | hd
  · rfl
  · dsimp only
    split <;> rfl

theorem closeFileH_encoding (h : FileHandler) : h.closeFileH.encoding = h.encoding := by
  unfold FileHandler.closeFileH
  rcases h.file with _ | hd
  · rfl
  · dsimp only
    split <;> rfl

theorem closeFileH_allowAny (h : FileHandler) : h.closeFileH.allow_any = h.allow_any := by
  unfold FileHandler.closeFileH
  rcases h.file with _ | hd
  · rfl
  · dsimp only
    split <;> rfl

/-- Opening any write mode when the already-open-in-that-mode shortcut
does not apply: `w`-family modes truncate, `a`-family modes keep the
content and position at its end. -/
theorem openFile_write_reopen (fs : FS) (p enc m : String) (hd? : Option Handle) (cf aa : Bool)
    (hm : m ∈ writeModes)
    (hno : ¬((FileHandler.mk hd? cf p enc aa).closedB = false ∧
      (FileHandler.mk hd? cf p enc aa).fileMode = some m)) :
    (FileHandler.mk hd? cf p enc aa).openFile fs m
      = .ok (FileHandler.mk
            (some ⟨m, false,
              (if strContains m 'w' = true then [] else (fs.get p).getD []).length⟩)
            cf p enc aa,
          fs.set p (if strContains m 'w' = true then [] else (fs.get p).getD [])) := by
  have hlow := strLower_valid (writeModes_sub_valid hm)
  unfold FileHandler.openFile
  rw [hlow, if_neg hno]
  simp only [closeFileH_filepath, closeFileH_created, closeFileH_encoding, closeFileH_allowAny]
  simp only [writeModes, List.mem_cons, List.not_mem_nil, or_false] at hm
  rcases hm with rfl | rfl | rfl | rfl | rfl | rfl | rfl | rfl <;> rfl

/-- A codec write of one document through an open handle. -/
theorem writeDocC_state (fs : FS) (p enc mm : String) (q : Nat) (cf aa : Bool) (ck : Chunk) :
    (FileHandler.mk (some ⟨mm, false, q⟩) cf p enc aa).writeDocC fs ck
      = .ok (FileHandler.mk (some ⟨mm, false, ((fs.get p).getD [] ++ [ck]).length⟩) cf p enc aa,
          fs.set p ((fs.get p).getD [] ++ [ck])) := rfl

/-- A codec write of one document on a just-cleared file. -/
theorem writeDocC_cleared (fs : FS) (p enc mm : String) (cf aa : Bool) (ck : Chunk) :
    (FileHandler.mk (some ⟨mm, false, 0⟩) cf p enc aa).writeDocC (fs.set p []) ck
      = .ok (FileHandler.mk (some ⟨mm, false, 1⟩) cf p enc aa, fs.set p [ck]) := by
  rw [writeDocC_state, FS.get_set_same]
  simp [FS.set_set]

/-- A text-document write through an open text-mode handle appends the
document. -/
theorem writeTextDoc_state (fs : FS) (p enc mm : String) (q : Nat) (cf aa : Bool) (ck : Chunk)
    (hb : strContains mm 'b' = false) :
    (FileHandler.mk (some ⟨mm, false, q⟩) cf p enc aa).writeTextDoc fs ck
      = .ok (FileHandler.mk (some ⟨mm, false, ((fs.get p).getD [] ++ [ck]).length⟩) cf p enc aa,
          fs.set p ((fs.get p).getD [] ++ [ck])) := by
  unfold FileHandler.writeTextDoc
  simp [hb]

/-- A text-document write on a just-cleared file through a text-mode
handle. -/
theorem writeTextDoc_cleared (fs : FS) (p enc mm : String) (cf aa : Bool) (ck : Chunk)
    (hb : strContains mm 'b' = false) :
    (FileHandler.mk (some ⟨mm, false, 0⟩) cf p enc aa).writeTextDoc (fs.set p []) ck
      = .ok (FileHandler.mk (some ⟨mm, false, 1⟩) cf p enc aa, fs.set p [ck]) := by
  rw [writeTextDoc_state (fs.set p []) p enc mm 0 cf aa ck hb, FS.get_set_same]
  simp [FS.set_set]

/-- A text-document write through a binary-mode handle raises
`TypeError`. -/
theorem writeTextDoc_binary (fs : FS) (p enc mm : String) (q : Nat) (cf aa : Bool) (ck : Chunk)
    (hb : strContains mm 'b' = true) :
    (FileHandler.mk (some ⟨mm, false, q⟩) cf p enc aa).writeTextDoc fs ck
      = .error .typeError := by
  unfold FileHandler.writeTextDoc
  simp [hb]

/-- `clear_file` on a handle already open in `w` on a just-cleared file
is a no-op: the `open_file('w')` shortcut fires and nothing is
truncated. -/
theorem clearFile_w_cleared (fs : FS) (p enc : String) (cf aa : Bool) :
    (FileHandler.mk (some ⟨"w", false, 0⟩) cf p enc aa).clearFile (fs.set p [])
      = .ok (FileHandler.mk (some ⟨"w", false, 0⟩) cf p enc aa, fs.set p []) := by
  unfold FileHandler.clearFile
  simp only [openFile_noop (FileHandler.mk (some ⟨"w", false, 0⟩) cf p enc aa) (fs.set p [])
      "w" (by decide) ⟨rfl, rfl⟩, bindOk,
    writeRawS_cleared fs p enc cf aa, FileHandler.closedB, FileHandler.fileMode,
    Option.map_some]
  simp only [Bool.false_eq_true, if_false]
  exact openFile_noop (FileHandler.mk (some ⟨"w", false, 0⟩) cf p enc aa) (fs.set p [])
    "w" (by decide) ⟨rfl, rfl⟩

/-- `_write_json` on a handle open in a valid non-create text mode other
than `w`: the file is cleared, then holds exactly the serialised
mapping. -/
theorem writeJsonC_open (fs : FS) (p enc m : String) (pos₀ : Nat) (cf aa : Bool)
    (kvs : List (String × Value)) (hv : m ∈ validModes) (hx : strContains m 'x' = false)
    (hw : m ≠ "w") (hb : strContains m 'b' = false) :
    (FileHandler.mk (some ⟨m, false, pos₀⟩) cf p enc aa).writeJsonC fs (Value.map kvs)
      = .ok (FileHandler.mk (some ⟨m, false, 1⟩) cf p enc aa,
          fs.set p [Chunk.jsonDoc (Value.map kvs)]) := by
  unfold FileHandler.writeJsonC
  simp only [clearFile_open fs p enc m pos₀ cf aa hv hx hw, bindOk,
    writeTextDoc_cleared fs p enc m cf aa (Chunk.jsonDoc (Value.map kvs)) hb]

/-- `_write_json` on a handle open in a valid binary mode other than `w`:
the internal clear succeeds (truncating the file), but
`self.file.write(_json)` then raises `TypeError` on the binary handle,
which the method's `except` wraps into `FileError`. -/
theorem writeJsonC_binary (fs : FS) (p enc m : String) (pos₀ : Nat) (cf aa : Bool)
    (kvs : List (String × Value)) (hv : m ∈ validModes) (hx : strContains m 'x' = false)
    (hw : m ≠ "w") (hb : strContains m 'b' = true) :
    (FileHandler.mk (some ⟨m, false, pos₀⟩) cf p enc aa).writeJsonC fs (Value.map kvs)
      = .error (.fileError "File cannot be written into.") := by
  unfold FileHandler.writeJsonC
  simp only [clearFile_open fs p enc m pos₀ cf aa hv hx hw, bindOk,
    writeTextDoc_binary (fs.set p []) p enc m 0 cf aa (Chunk.jsonDoc (Value.map kvs)) hb]

/-- `_write_json` on a handle already open in `w` on a just-cleared file:
the internal clear is a no-op, and the write lands on the empty file. -/
theorem writeJsonC_w_cleared (fs : FS) (p enc : String) (cf aa : Bool)
    (kvs : List (String × Value)) :
    (FileHandler.mk (some ⟨"w", false, 0⟩) cf p enc aa).writeJsonC (fs.set p [])
        (Value.map kvs)
      = .ok (FileHandler.mk (some ⟨"w", false, 1⟩) cf p enc aa,
          fs.set p [Chunk.jsonDoc (Value.map kvs)]) := by
  unfold FileHandler.writeJsonC
  simp only [clearFile_w_cleared fs p enc cf aa, bindOk,
    writeTextDoc_cleared fs p enc "w" cf aa (Chunk.jsonDoc (Value.map kvs)) (by decide)]

/-- `_write_json` rejects non-dict content with `TypeError`. -/
theorem writeJsonC_type_error (h : FileHandler) (fs : FS) (content : Value)
    (hnm : ∀ kvs, content ≠ Value.map kvs) :
    h.writeJsonC fs content = .error .typeError := by
  unfold FileHandler.writeJsonC
  rcases content with s | n | xs | kvs
  · rfl
  · rfl
  · rfl
  · exact absurd rfl (hnm kvs)

/-- `write_to_file` of a mapping on a `.json` session, in any text write
mode, except when the handle is already open in exactly `w` (where the
truncate-on-open shortcut is skipped): the file ends up holding exactly
the serialised mapping, and the handle keeps the requested mode. -/
theorem json_write_replaces (fs : FS) (p enc m : String) (hd? : Option Handle) (cf aa : Bool)
    (kvs : List (String × Value)) (hft : pathFiletype p = "json") (hm : m ∈ writeModes)
    (hb : strContains m 'b' = false)
    (hnw : ¬(m = "w" ∧ (FileHandler.mk hd? cf p enc aa).closedB = false ∧
      (FileHandler.mk hd? cf p enc aa).fileMode = some "w")) :
    (FileHandler.mk hd? cf p enc aa).writeToFile fs (Value.map kvs) m
      = .ok (FileHandler.mk (some ⟨m, false, 1⟩) cf p enc aa,
          fs.set p [Chunk.jsonDoc (Value.map kvs)]) := by
  have hv := writeModes_sub_valid hm
  have hx := writeModes_no_x hm
  have hlow := strLower_valid hv
  have hsup : FileHandler.filetype (FileHandler.mk hd? cf p enc aa) ∈ supportedTypes ∨
      (FileHandler.mk hd? cf p enc aa).allow_any = true := by
    left
    show pathFiletype p ∈ supportedTypes
    rw [hft]
    decide
  unfold FileHandler.writeToFile
  rw [hlow, if_neg (writeModes_check hm), if_pos hsup]
  by_cases hno : (FileHandler.mk hd? cf p enc aa).closedB = false ∧
      (FileHandler.mk hd? cf p enc aa).fileMode = some m
  · obtain ⟨pos₀, rfl⟩ : ∃ pos₀, hd? = some ⟨m, false, pos₀⟩ := by
      rcases hd? with _ | ⟨⟨m₀, cl₀, pos₀⟩⟩
      · exact absurd hno.2 (by simp [FileHandler.fileMode])
      · have hm₀ : m₀ = m := by simpa [FileHandler.fileMode] using hno.2
        have hcl : cl₀ = false := by simpa [FileHandler.closedB] using hno.1
        exact ⟨pos₀, by rw [hm₀, hcl]⟩
    have hw : m ≠ "w" := fun hmw => hnw ⟨hmw, hno.1, hmw ▸ hno.2⟩
    rw [openFile_noop _ fs m hv hno, bindOk]
    show FileHandler.writeContent _ fs (Value.map kvs) = _
    unfold FileHandler.writeContent
    rw [show FileHandler.filetype
        (FileHandler.mk (some ⟨m, false, pos₀⟩) cf p enc aa) = "json" from hft]
    exact writeJsonC_open fs p enc m pos₀ cf aa kvs hv hx hw hb
  · rw [openFile_write_reopen fs p enc m hd? cf aa hm hno, bindOk]
    show FileHandler.writeContent _ _ (Value.map kvs) = _
    unfold FileHandler.writeContent
    rw [show FileHandler.filetype
        (FileHandler.mk (some ⟨m, false,
          (if strContains m 'w' = true then [] else (fs.get p).getD []).length⟩)
          cf p enc aa) = "json" from hft]
    by_cases hmw : m = "w"
    · subst hmw
      exact writeJsonC_w_cleared fs p enc cf aa kvs
    · exact (writeJsonC_open
          (fs.set p (if strContains m 'w' = true then [] else (fs.get p).getD []))
          p enc m _ cf aa kvs hv hx hmw hb).trans (by rw [FS.set_set])

/-- `write_to_file` of a mapping on a `.json` session in a binary write
mode: the internal clear succeeds, then `self.file.write` of the
serialised text raises `TypeError` on the binary handle, which
`_write_json`'s `except` wraps into `FileError`. -/
theorem json_write_binary (fs : FS) (p enc m : String) (hd? : Option Handle) (cf aa : Bool)
    (kvs : List (String × Value)) (hft : pathFiletype p = "json") (hm : m ∈ writeModes)
    (hb : strContains m 'b' = true) :
    (FileHandler.mk hd? cf p enc aa).writeToFile fs (Value.map kvs) m
      = .error (.fileError "File cannot be written into.") := by
  have hv := writeModes_sub_valid hm
  have hx := writeModes_no_x hm
  have hw : m ≠ "w" := fun he => by
    rw [he] at hb
    exact absurd hb (by decide)
  have hlow := strLower_valid hv
  have hsup : FileHandler.filetype (FileHandler.mk hd? cf p enc aa) ∈ supportedTypes ∨
      (FileHandler.mk hd? cf p enc aa).allow_any = true := by
    left
    show pathFiletype p ∈ supportedTypes
    rw [hft]
    decide
  unfold FileHandler.writeToFile
  rw [hlow, if_neg (writeModes_check hm), if_pos hsup]
  by_cases hno : (FileHandler.mk hd? cf p enc aa).closedB = false ∧
      (FileHandler.mk hd? cf p enc aa).fileMode = some m
  · obtain ⟨pos₀, rfl⟩ : ∃ pos₀, hd? = some ⟨m, false, pos₀⟩ := by
      rcases hd? with _ | ⟨⟨m₀, cl₀, pos₀⟩⟩
      · exact absurd hno.2 (by simp [FileHandler.fileMode])
      · have hm₀ : m₀ = m := by simpa [FileHandler.fileMode] using hno.2
        have hcl : cl₀ = false := by simpa [FileHandler.closedB] using hno.1
        exact ⟨pos₀, by rw [hm₀, hcl]⟩
    rw [openFile_noop _ fs m hv hno, bindOk]
    show FileHandler.writeContent _ fs (Value.map kvs) = _
    unfold FileHandler.writeContent
    rw [show FileHandler.filetype
        (FileHandler.mk (some ⟨m, false, pos₀⟩) cf p enc aa) = "json" from hft]
    exact writeJsonC_binary fs p enc m pos₀ cf aa kvs hv hx hw hb
  · rw [openFile_write_reopen fs p enc m hd? cf aa hm hno, bindOk]
    show FileHandler.writeContent _ _ (Value.map kvs) = _
    unfold FileHandler.writeContent
    rw [show FileHandler.filetype
        (FileHandler.mk (some ⟨m, false,
          (if strContains m 'w' = true then [] else (fs.get p).getD []).length⟩)
          cf p enc aa) = "json" from hft]
    exact writeJsonC_binary
        (fs.set p (if strContains m 'w' = true then [] else (fs.get p).getD []))
        p enc m _ cf aa kvs hv hx hw hb

/-- `_write_pickle` from any open handle: reopens in `ab+` (a no-op when
already there) and appends one serialised object. -/
theorem writePickleC_open (fs : FS) (p enc m : String) (pos₀ : Nat) (cf aa : Bool) (v : Value) :
    (FileHandler.mk (some ⟨m, false, pos₀⟩) cf p enc aa).writePickleC fs v
      = .ok (FileHandler.mk (some ⟨"ab+", false,
            ((fs.get p).getD [] ++ [Chunk.pickleObj v]).length⟩) cf p enc aa,
          fs.set p ((fs.get p).getD [] ++ [Chunk.pickleObj v])) := by
  unfold FileHandler.writePickleC
  by_cases hmab : m = "ab+"
  · subst hmab
    rw [openFile_noop (FileHandler.mk (some ⟨"ab+", false, pos₀⟩) cf p enc aa) fs "ab+"
      (by decide) ⟨rfl, rfl⟩, bindOk]
    exact writeDocC_state fs p enc "ab+" pos₀ cf aa (Chunk.pickleObj v)
  · have hre : (FileHandler.mk (some ⟨m, false, pos₀⟩) cf p enc aa).openFile fs "ab+"
        = .ok (FileHandler.mk (some ⟨"ab+", false, ((fs.get p).getD []).length⟩) cf p enc aa,
            fs.set p ((fs.get p).getD [])) :=
      openFile_write_reopen fs p enc "ab+" (some ⟨m, false, pos₀⟩) cf aa (by decide)
        (fun hc => hmab (by simpa [FileHandler.fileMode] using hc.2))
    rw [hre, bindOk]
    exact (writeDocC_state (fs.set p ((fs.get p).getD [])) p enc "ab+" _ cf aa
        (Chunk.pickleObj v)).trans (by simp [FS.get_set_same, FS.set_set])

/-- `write_to_file` on a `.pickle` session: the handle ends up in `ab+`
regardless of the requested write mode, and exactly one serialised object
is appended to the content left by opening the requested mode. -/
theorem pickle_write_forces (fs : FS) (p enc m : String) (hd? : Option Handle) (cf aa : Bool)
    (v : Value) (hft : pathFiletype p = "pickle") (hm : m ∈ writeModes) :
    ∃ c₁ : List Chunk,
      (FileHandler.mk hd? cf p enc aa).writeToFile fs v m
        = .ok (FileHandler.mk (some ⟨"ab+", false, c₁.length + 1⟩) cf p enc aa,
            fs.set p (c₁ ++ [Chunk.pickleObj v])) := by
  have hv := writeModes_sub_valid hm
  have hlow := strLower_valid hv
  have hsup : FileHandler.filetype (FileHandler.mk hd? cf p enc aa) ∈ supportedTypes ∨
      (FileHandler.mk hd? cf p enc aa).allow_any = true := by
    left
    show pathFiletype p ∈ supportedTypes
    rw [hft]
    decide
  unfold FileHandler.writeToFile
  rw [hlow, if_neg (writeModes_check hm), if_pos hsup]
  by_cases hno : (FileHandler.mk hd? cf p enc aa).closedB = false ∧
      (FileHandler.mk hd? cf p enc aa).fileMode = some m
  · obtain ⟨pos₀, rfl⟩ : ∃ pos₀, hd? = some ⟨m, false, pos₀⟩ := by
      rcases hd? with _ | ⟨⟨m₀, cl₀, pos₀⟩⟩
      · exact absurd hno.2 (by simp [FileHandler.fileMode])
      · have hm₀ : m₀ = m := by simpa [FileHandler.fileMode] using hno.2
        have hcl : cl₀ = false := by simpa [FileHandler.closedB] using hno.1
        exact ⟨pos₀, by rw [hm₀, hcl]⟩
    rw [openFile_noop _ fs m hv hno, bindOk]
    refine ⟨(fs.get p).getD [], ?_⟩
    show FileHandler.writeContent _ fs v = _
    unfold FileHandler.writeContent
    rw [show FileHandler.filetype
        (FileHandler.mk (some ⟨m, false, pos₀⟩) cf p enc aa) = "pickle" from hft]
    exact (writePickleC_open fs p enc m pos₀ cf aa v).trans (by simp)
  · rw [openFile_write_reopen fs p enc m hd? cf aa hm hno, bindOk]
    refine ⟨(if strContains m 'w' = true then [] else (fs.get p).getD []), ?_⟩
    show FileHandler.writeContent _ _ v = _
    unfold FileHandler.writeContent
    rw [show FileHandler.filetype
        (FileHandler.mk (some ⟨m, false,
          (if strContains m 'w' = true then [] else (fs.get p).getD []).length⟩)
          cf p enc aa) = "pickle" from hft]
    exact (writePickleC_open
        (fs.set p (if strContains m 'w' = true then [] else (fs.get p).getD []))
        p enc m _ cf aa v).trans (by simp [FS.get_set_same, FS.set_set])

/-- `write_to_file` of non-dict content on a `.json` session raises
`TypeError` in every write mode. -/
theorem json_write_type_error (fs : FS) (p enc m : String) (hd? : Option Handle) (cf aa : Bool)
    (content : Value) (hft : pathFiletype p = "json") (hm : m ∈ writeModes)
    (hnm : ∀ kvs, content ≠ Value.map kvs) :
    (FileHandler.mk hd? cf p enc aa).writeToFile fs content m = .error .typeError := by
  have hv := writeModes_sub_valid hm
  have hlow := strLower_valid hv
  have hsup : FileHandler.filetype (FileHandler.mk hd? cf p enc aa) ∈ supportedTypes ∨
      (FileHandler.mk hd? cf p enc aa).allow_any = true := by
    left
    show pathFiletype p ∈ supportedTypes
    rw [hft]
    decide
  unfold FileHandler.writeToFile
  rw [hlow, if_neg (writeModes_check hm), if_pos hsup]
  by_cases hno : (FileHandler.mk hd? cf p enc aa).closedB = false ∧
      (FileHandler.mk hd? cf p enc aa).fileMode = some m
  · rw [openFile_noop _ fs m hv hno, bindOk]
    show FileHandler.writeContent _ fs content = _
    unfold FileHandler.writeContent
    rw [show FileHandler.filetype (FileHandler.mk hd? cf p enc aa) = "json" from hft]
    exact writeJsonC_type_error _ fs content hnm
  · rw [openFile_write_reopen fs p enc m hd? cf aa hm hno, bindOk]
    show FileHandler.writeContent _ _ content = _
    unfold FileHandler.writeContent
    rw [show FileHandler.filetype
        (FileHandler.mk (some ⟨m, false,
          (if strContains m 'w' = true then [] else (fs.get p).getD []).length⟩)
          cf p enc aa) = "json" from hft]
    exact writeJsonC_type_error _ _ content hnm

/-- Inverting a successful `open_file("r+")`: the handle ends open in
`r+` and the filesystem is untouched (`r`-modes neither create nor
truncate). -/
theorem openFile_rplus_inv (h : FileHandler) (fs : FS) (h₂ : FileHandler) (fs₂ : FS)
    (hok : h.openFile fs "r+" = .ok (h₂, fs₂)) :
    ∃ pos, h₂ = FileHandler.mk (some ⟨"r+", false, pos⟩) h.created_file h.filepath
      h.encoding h.allow_any ∧ fs₂ = fs := by
  unfold FileHandler.openFile at hok
  rw [show strLower "r+" = "r+" from rfl] at hok
  by_cases hno : h.closedB = false ∧ h.fileMode = some "r+"
  · rw [if_pos hno] at hok
    obtain ⟨hd?, cf, p, enc, aa⟩ := h
    rcases hd? with _ | ⟨⟨m₀, cl₀, pos₀⟩⟩
    · exact absurd hno.2 (by simp [FileHandler.fileMode])
    · have hm₀ : m₀ = "r+" := by simpa [FileHandler.fileMode] using hno.2
      have hcl : cl₀ = false := by simpa [FileHandler.closedB] using hno.1
      subst hm₀; subst hcl
      rw [Except.ok.injEq, Prod.mk.injEq] at hok
      exact ⟨pos₀, hok.1.symm, hok.2.symm⟩
  · rw [if_neg hno] at hok
    dsimp only [] at hok
    rw [show pyOpen fs (h.closeFileH).filepath "r+"
        = (match fs.get (h.closeFileH).filepath with
           | some _ => .ok (fs, 0)
           | none => .error .fileNotFoundError) from rfl] at hok
    rcases hg : fs.get (h.closeFileH).filepath with _ | c
    · rw [hg] at hok
      exact absurd hok (by simp)
    · rw [hg] at hok
      rw [Except.ok.injEq, Prod.mk.injEq] at hok
      refine ⟨0, ?_, hok.2.symm⟩
      rw [← hok.1]
      rw [show ({ h.closeFileH with file := some ⟨"r+", false, 0⟩ } : FileHandler)
          = FileHandler.mk (some ⟨"r+", false, 0⟩) h.closeFileH.created_file
            h.closeFileH.filepath h.closeFileH.encoding h.closeFileH.allow_any from rfl,
        closeFileH_created, closeFileH_filepath, closeFileH_encoding, closeFileH_allowAny]

/-- Inverting a successful `read_file("r+")` on a `.json` session: the
filesystem is untouched and the handle ends open in `r+`. -/
theorem readFile_json_inv (fs : FS) (p enc : String) (hd? : Option Handle) (cf aa : Bool)
    (v : Value) (h₁ : FileHandler) (fs₁ : FS) (hft : pathFiletype p = "json")
    (hok : (FileHandler.mk hd? cf p enc aa).readFile fs "r+" = .ok (v, h₁, fs₁)) :
    fs₁ = fs ∧ ∃ pos, h₁ = FileHandler.mk (some ⟨"r+", false, pos⟩) cf p enc aa := by
  have hsup : FileHandler.filetype (FileHandler.mk hd? cf p enc aa) ∈ supportedTypes ∨
      (FileHandler.mk hd? cf p enc aa).allow_any = true := by
    left
    show pathFiletype p ∈ supportedTypes
    rw [hft]
    decide
  unfold FileHandler.readFile at hok
  rw [if_neg (by decide), if_pos hsup, show strLower "r+" = "r+" from rfl] at hok
  rcases hop : (FileHandler.mk hd? cf p enc aa).openFile fs "r+" with e | hpair
  · rw [hop, bindErr] at hok
    exact Except.noConfusion hok
  · obtain ⟨h₂, fs₂⟩ := hpair
    rw [hop, bindOk] at hok
    obtain ⟨pos₂, he, hf⟩ := openFile_rplus_inv _ fs h₂ fs₂ hop
    rw [he, hf] at hok
    dsimp only [FileHandler.filetype] at hok
    rw [hft] at hok
    have hok' : FileHandler.readSingleDoc
        (FileHandler.mk (some ⟨"r+", false, pos₂⟩) cf p enc aa) fs
        (fun ck => match ck with | Chunk.jsonDoc w => some w | _ => none)
        "JSON file could not be loaded" = .ok (v, h₁, fs₁) := hok
    unfold FileHandler.readSingleDoc at hok'
    dsimp only [] at hok'
    rcases hdrop : (((fs.get p).getD []).drop pos₂) with _ | ⟨ck, rest⟩
    · rw [hdrop] at hok'
      simp at hok'
    · rw [hdrop] at hok'
      rcases rest with _ | ⟨ck₂, rest₂⟩
      · rcases ck with s | w | w | w | rows | w
        case jsonDoc =>
          have hok'' : (Except.ok (w, FileHandler.mk
                (some ⟨"r+", false, ((fs.get p).getD []).length⟩) cf p enc aa, fs)
              : Except PyErr (Value × FileHandler × FS)) = .ok (v, h₁, fs₁) := hok'
          rw [Except.ok.injEq, Prod.mk.injEq, Prod.mk.injEq] at hok''
          exact ⟨hok''.2.2.symm, ((fs.get p).getD []).length, hok''.2.1.symm⟩
        all_goals simp at hok'
      · simp at hok'

theorem closeFileH_mk (hd? : Option Handle) (cf : Bool) (p enc : String) (aa : Bool) :
    (FileHandler.mk hd? cf p enc aa).closeFileH = FileHandler.mk (hdClose hd?) cf p enc aa := by
  unfold FileHandler.closeFileH hdClose
  rcases hd? with _ | hd
  · rfl
  · dsimp only
    split <;> rfl

/-- A closed handle never satisfies the open-in-mode shortcut. -/
theorem hdClose_not_open (hd? : Option Handle) (cf : Bool) (p enc : String) (aa : Bool)
    (m : String) :
    ¬((FileHandler.mk (hdClose hd?) cf p enc aa).closedB = false ∧
      (FileHandler.mk (hdClose hd?) cf p enc aa).fileMode = some m) := by
  intro hc
  rcases hd? with _ | hd
  · simpa [hdClose, FileHandler.fileMode] using hc.2
  · have h1 := hc.1
    by_cases hcl : hd.closed = true
    · simp [hdClose, hcl, FileHandler.closedB] at h1
    · simp [hdClose, hcl, FileHandler.closedB] at h1

/-! Inversion lemmas: every successful open or write leaves the handle
present and not closed. -/

theorem openFile_ok_file (h : FileHandler) (fs : FS) (m : String) (h' : FileHandler) (fs' : FS)
    (hok : h.openFile fs m = .ok (h', fs')) :
    ∃ hd, h'.file = some hd ∧ hd.closed = false := by
  unfold FileHandler.openFile at hok
  by_cases hno : h.closedB = false ∧ h.fileMode = some (strLower m)
  · rw [if_pos hno] at hok
    rw [Except.ok.injEq, Prod.mk.injEq] at hok
    rcases hfile : h.file with _ | hd
    · exact absurd hno.2 (by simp [FileHandler.fileMode, hfile])
    · have hcl : hd.closed = false := by
        have h1 := hno.1
        unfold FileHandler.closedB at h1
        rw [hfile] at h1
        exact h1
      exact ⟨hd, by rw [← hok.1]; exact hfile, hcl⟩
  · rw [if_neg hno] at hok
    dsimp only [] at hok
    rcases hpy : pyOpen fs (h.closeFileH).filepath (strLower m) with e | ⟨fs₂, pos₂⟩
    · rw [hpy] at hok
      exact Except.noConfusion hok
    · rw [hpy] at hok
      rw [Except.ok.injEq, Prod.mk.injEq] at hok
      exact ⟨⟨strLower m, false, pos₂⟩, by rw [← hok.1], rfl⟩

theorem writeRawS_ok_file (h : FileHandler) (fs : FS) (s : String) (h' : FileHandler) (fs' : FS)
    (hok : h.writeRawS fs s = .ok (h', fs')) :
    ∃ hd, h'.file = some hd ∧ hd.closed = false := by
  unfold FileHandler.writeRawS at hok
  rcases hfile : h.file with _ | hd
  · rw [hfile] at hok
    exact Except.noConfusion hok
  · rw [hfile] at hok
    dsimp only [] at hok
    by_cases hcl : hd.closed = true
    · rw [if_pos hcl] at hok
      exact Except.noConfusion hok
    · rw [if_neg hcl] at hok
      by_cases hbm : strContains hd.mode 'b' = true
      · rw [if_pos hbm] at hok
        exact Except.noConfusion hok
      · rw [if_neg hbm] at hok
        rw [Except.ok.injEq, Prod.mk.injEq] at hok
        exact ⟨⟨hd.mode, hd.closed, _⟩, by rw [← hok.1], by simpa using hcl⟩

theorem writeDocC_ok_file (h : FileHandler) (fs : FS) (ck : Chunk) (h' : FileHandler) (fs' : FS)
    (hok : h.writeDocC fs ck = .ok (h', fs')) :
    ∃ hd, h'.file = some hd ∧ hd.closed = false := by
  unfold FileHandler.writeDocC at hok
  rcases hfile : h.file with _ | hd
  · rw [hfile] at hok
    exact Except.noConfusion hok
  · rw [hfile] at hok
    dsimp only [] at hok
    by_cases hcl : hd.closed = true
    · rw [if_pos hcl] at hok
      exact Except.noConfusion hok
    · rw [if_neg hcl] at hok
      rw [Except.ok.injEq, Prod.mk.injEq] at hok
      exact ⟨⟨hd.mode, hd.closed, _⟩, by rw [← hok.1], by simpa using hcl⟩

theorem writeTextDoc_ok_file (h : FileHandler) (fs : FS) (ck : Chunk) (h' : FileHandler)
    (fs' : FS) (hok : h.writeTextDoc fs ck = .ok (h', fs')) :
    ∃ hd, h'.file = some hd ∧ hd.closed = false := by
  unfold FileHandler.writeTextDoc at hok
  rcases hfile : h.file with _ | hd
  · rw [hfile] at hok
    exact Except.noConfusion hok
  · rw [hfile] at hok
    dsimp only [] at hok
    by_cases hcl : hd.closed = true
    · rw [if_pos hcl] at hok
      exact Except.noConfusion hok
    · rw [if_neg hcl] at hok
      by_cases hbm : strContains hd.mode 'b' = true
      · rw [if_pos hbm] at hok
        exact Except.noConfusion hok
      · rw [if_neg hbm] at hok
        rw [Except.ok.injEq, Prod.mk.injEq] at hok
        exact ⟨⟨hd.mode, hd.closed, _⟩, by rw [← hok.1], by simpa using hcl⟩

theorem writeJsonC_ok_file (h : FileHandler) (fs : FS) (v : Value) (h' : FileHandler) (fs' : FS)
    (hok : h.writeJsonC fs v = .ok (h', fs')) :
    ∃ hd, h'.file = some hd ∧ hd.closed = false := by
  unfold FileHandler.writeJsonC at hok
  rcases v with s | n | xs | kvs
  · exact Except.noConfusion hok
  · exact Except.noConfusion hok
  · exact Except.noConfusion hok
  · dsimp only [] at hok
    split at hok
    · next r heq =>
      obtain ⟨r1, r2⟩ := r
      rw [Except.ok.injEq, Prod.mk.injEq] at hok
      rcases hcl : h.clearFile fs with e | ⟨h₁, fs₁⟩
      · rw [hcl, bindErr] at heq
        exact Except.noConfusion heq
      · rw [hcl, bindOk] at heq
        dsimp only [] at heq
        obtain ⟨hd, hfile, hcl'⟩ := writeTextDoc_ok_file h₁ fs₁ _ r1 r2 heq
        exact ⟨hd, hok.1 ▸ hfile, hcl'⟩
    · exact Except.noConfusion hok

theorem writePickleC_ok_file (h : FileHandler) (fs : FS) (v : Value) (h' : FileHandler)
    (fs' : FS) (hok : h.writePickleC fs v = .ok (h', fs')) :
    ∃ hd, h'.file = some hd ∧ hd.closed = false := by
  unfold FileHandler.writePickleC at hok
  rcases hop : h.openFile fs "ab+" with e | ⟨h₁, fs₁⟩
  · rw [hop, bindErr] at hok
    exact Except.noConfusion hok
  · rw [hop, bindOk] at hok
    exact writeDocC_ok_file h₁ fs₁ _ h' fs' hok

theorem writeContent_ok_file (h : FileHandler) (fs : FS) (v : Value) (h' : FileHandler)
    (fs' : FS) (hok : h.writeContent fs v = .ok (h', fs')) :
    ∃ hd, h'.file = some hd ∧ hd.closed = false := by
  unfold FileHandler.writeContent at hok
  split at hok
  · exact writeJsonC_ok_file h fs v h' fs' hok
  · unfold FileHandler.writeCsvC at hok
    rcases v with s | n | xs | kvs
    · exact Except.noConfusion hok
    · exact Except.noConfusion hok
    · dsimp only [] at hok
      rcases hrows : FileHandler.rowsOf xs with _ | rs
      · rw [hrows] at hok
        exact Except.noConfusion hok
      · rw [hrows] at hok
        exact writeTextDoc_ok_file h fs _ h' fs' hok
    · exact Except.noConfusion hok
  · exact writeDocC_ok_file h fs _ h' fs' hok
  · unfold FileHandler.writeTomlC at hok
    rcases v with s | n | xs | kvs
    · exact Except.noConfusion hok
    · exact Except.noConfusion hok
    · exact Except.noConfusion hok
    · exact writeTextDoc_ok_file h fs _ h' fs' hok
  · exact writePickleC_ok_file h fs v h' fs' hok
  · unfold FileHandler.writeRawV at hok
    rcases v with s | n | xs | kvs
    · exact writeRawS_ok_file h fs s h' fs' hok
    · exact Except.noConfusion hok
    · exact Except.noConfusion hok
    · exact Except.noConfusion hok

theorem writeToFile_ok_file (h : FileHandler) (fs : FS) (v : Value) (m : String)
    (h' : FileHandler) (fs' : FS) (hok : h.writeToFile fs v m = .ok (h', fs')) :
    ∃ hd, h'.file = some hd ∧ hd.closed = false := by
  unfold FileHandler.writeToFile at hok
  by_cases hc1 : (strLower m).data.isEmpty = false ∧
      (strContains (strLower m) 'r' = true ∨ strContains (strLower m) 'x' = true)
  · rw [if_pos hc1] at hok
    exact Except.noConfusion hok
  · rw [if_neg hc1] at hok
    by_cases hc2 : h.filetype ∈ supportedTypes ∨ h.allow_any = true
    · rw [if_pos hc2] at hok
      rcases hop : h.openFile fs (strLower m) with e | ⟨h₁, fs₁⟩
      · rw [hop, bindErr] at hok
        exact Except.noConfusion hok
      · rw [hop, bindOk] at hok
        exact writeContent_ok_file h₁ fs₁ v h' fs' hok
    · rw [if_neg hc2] at hok
      exact Except.noConfusion hok

/-- Closing an open handle marks it closed. -/
theorem closeFileH_of_open (h : FileHandler) (hd : Handle) (hfile : h.file = some hd)
    (hcl : hd.closed = false) :
    h.closeFileH.file = some ⟨hd.mode, true, hd.pos⟩ := by
  unfold FileHandler.closeFileH
  rw [hfile]
  dsimp only
  rw [if_neg (by rw [hcl]; exact Bool.false_ne_true)]

/-! ### Claim C1: Clear, then read -/

/-- C1, counterexample: the claim "for every session, Clear then read
yields empty content and zero size, and the mode after Clear equals the
mode before" is false.  (1) with the handle open in exactly `w` and
`"hello"` written, Clear leaves `"hello"` and size 5; (2) on a closed
session the mode switches from `a+` to `w`; (3) on a cleared `.json`
session the content read raises `FileError` instead of returning empty
content; (4) with an `x`-mode handle Clear itself raises. -/
theorem clear_file_claim_counterexample :
    (clearTraceW = .ok (some "w", Value.str "hello", 5) ∧
      clearTraceW ≠ .ok (some "w", Value.str "", 0)) ∧
    (clearTraceClosed = .ok (some "a+", some "w") ∧ ("a+" : String) ≠ "w") ∧
    clearTraceJson = .error (.fileError "JSON file could not be loaded") ∧
    clearTraceX = .error (.fileError "File cannot be opened.") := by
  refine ⟨⟨by decide, by decide⟩, ⟨by decide, by decide⟩, by decide, by decide⟩

/-- C1 (amended): for every session whose handle is open in a valid
non-create mode other than exactly `w`, on a raw (no-codec) filetype
that is supported or allowed via `allow_any`, Clear truncates the file
to size zero, keeps the session's mode equal to its pre-clear mode, and
a subsequent content read on the same session yields empty content. -/
theorem clear_then_read_amended (fs : FS) (p enc m : String) (pos : Nat) (cf aa : Bool)
    (hm : m ∈ validModes) (hx : strContains m 'x' = false) (hw : m ≠ "w")
    (hsup : pathFiletype p ∈ supportedTypes ∨ aa = true)
    (hraw : pathFiletype p ∉ (["json", "csv", "yaml", "toml", "pickle"] : List String)) :
    ∃ h' fs',
      (FileHandler.mk (some ⟨m, false, pos⟩) cf p enc aa).clearFile fs = .ok (h', fs') ∧
      h'.fileMode = (FileHandler.mk (some ⟨m, false, pos⟩) cf p enc aa).fileMode ∧
      fs'.sizeOfFile p = 0 ∧
      (∃ h'', h'.fileContent fs' = .ok (Value.str "", h'', fs')) := by
  refine ⟨_, _, clearFile_open fs p enc m pos cf aa hm hx hw, rfl, ?_, ?_⟩
  · simp [FS.sizeOfFile, FS.get_set_same, renderChunks, String.join]
  · exact ⟨_, fileContent_cleared fs p enc m cf aa hsup hraw⟩

/-- C1, witness: the amended theorem applied to a concrete `.txt` session
open in `a+` at position 1 on a file containing `"hi"`. -/
theorem clear_then_read_amended_witness :
    ∃ h' fs',
      (FileHandler.mk (some ⟨"a+", false, 1⟩) false "/d/t.txt" "utf-8" false).clearFile
            ⟨[("/d/t.txt", [Chunk.raw "hi"])]⟩ = .ok (h', fs') ∧
      h'.fileMode
        = (FileHandler.mk (some ⟨"a+", false, 1⟩) false "/d/t.txt" "utf-8" false).fileMode ∧
      fs'.sizeOfFile "/d/t.txt" = 0 ∧
      (∃ h'', h'.fileContent fs' = .ok (Value.str "", h'', fs')) :=
  clear_then_read_amended ⟨[("/d/t.txt", [Chunk.raw "hi"])]⟩ "/d/t.txt" "utf-8" "a+" 1
    false false (by decide) (by decide) (by decide) (Or.inl (by decide)) (by decide)

/-! ### Claim C8: mode validation -/

/-- C8: requesting a Read with a mode containing a write, append or
create-exclusive marker, or a Write with a mode containing a read or
create-exclusive marker, always fails with the handler's invalid-mode
`FileError`; in particular every mode in `{x, xb, x+, xb+}` is rejected
by both Read and Write, on every session and filesystem. -/
theorem invalid_mode_rejection :
    (∀ (h : FileHandler) (fs : FS) (mode : String),
        (strContains (strLower mode) 'w' = true ∨ strContains (strLower mode) 'a' = true ∨
          strContains (strLower mode) 'x' = true) →
        h.readFile fs mode = .error (.fileError ("Invalid read mode: " ++ strLower mode))) ∧
    (∀ (h : FileHandler) (fs : FS) (content : Value) (mode : String),
        (strContains (strLower mode) 'r' = true ∨ strContains (strLower mode) 'x' = true) →
        h.writeToFile fs content mode
          = .error (.fileError ("Invalid write mode: " ++ strLower mode))) ∧
    (∀ mode, mode ∈ (["x", "xb", "x+", "xb+"] : List String) →
        ∀ (h : FileHandler) (fs : FS) (content : Value),
          (∃ msg, h.readFile fs mode = .error (.fileError msg)) ∧
          (∃ msg, h.writeToFile fs content mode = .error (.fileError msg))) := by
  have p1 : ∀ (h : FileHandler) (fs : FS) (mode : String),
      (strContains (strLower mode) 'w' = true ∨ strContains (strLower mode) 'a' = true ∨
        strContains (strLower mode) 'x' = true) →
      h.readFile fs mode = .error (.fileError ("Invalid read mode: " ++ strLower mode)) := by
    intro h fs mode hc
    have hne : (strLower mode).data.isEmpty = false := by
      rcases hc with hc | hc | hc <;> exact strContains_ne_nil hc
    unfold FileHandler.readFile
    rw [if_pos ⟨hne, hc⟩]
  have p2 : ∀ (h : FileHandler) (fs : FS) (content : Value) (mode : String),
      (strContains (strLower mode) 'r' = true ∨ strContains (strLower mode) 'x' = true) →
      h.writeToFile fs content mode
        = .error (.fileError ("Invalid write mode: " ++ strLower mode)) := by
    intro h fs content mode hc
    have hne : (strLower mode).data.isEmpty = false := by
      rcases hc with hc | hc <;> exact strContains_ne_nil hc
    unfold FileHandler.writeToFile
    rw [if_pos ⟨hne, hc⟩]
  refine ⟨p1, p2, ?_⟩
  intro mode hmem h fs content
  have hx : strContains (strLower mode) 'x' = true := by
    simp only [List.mem_cons, List.not_mem_nil, or_false] at hmem
    rcases hmem with rfl | rfl | rfl | rfl <;> decide
  exact ⟨⟨_, p1 h fs mode (Or.inr (Or.inr hx))⟩, ⟨_, p2 h fs content mode (Or.inr hx)⟩⟩

/-- C8, witness: the rejection applied to mode `x` on a concrete `.txt`
session: both Read and Write fail with a `FileError`. -/
theorem invalid_mode_rejection_witness :
    (∃ msg, (FileHandler.mk (some ⟨"a+", false, 0⟩) false "/d/t.txt" "utf-8" false).readFile
        ⟨[("/d/t.txt", [])]⟩ "x" = .error (.fileError msg)) ∧
    (∃ msg, (FileHandler.mk (some ⟨"a+", false, 0⟩) false "/d/t.txt" "utf-8" false).writeToFile
        ⟨[("/d/t.txt", [])]⟩ (.str "t") "x" = .error (.fileError msg)) :=
  invalid_mode_rejection.2.2 "x" (by decide)
    (FileHandler.mk (some ⟨"a+", false, 0⟩) false "/d/t.txt" "utf-8" false)
    ⟨[("/d/t.txt", [])]⟩ (.str "t")

/-! ### Claim C9: construction -/

/-- C9: constructing a session on a missing path with `not_found_ok` set
creates the (empty) file — parent directories being implicit in the
path-keyed filesystem model — and reports the session as newly created,
open in `a+`; with `not_found_ok` unset a missing path raises
`FileNotFoundError`; with `exists_ok` unset an existing path raises
`FileExistsError`. -/
theorem construction_cases :
    (∀ (fs : FS) (p enc : String) (eo aa : Bool), fs.exists p = false →
        ∃ h fs', mkFileHandler fs p enc true eo aa = .ok (h, fs') ∧
          h.created_file = true ∧ h.filepath = p ∧ h.fileMode = some "a+" ∧
          h.closedB = false ∧ fs'.get p = some []) ∧
    (∀ (fs : FS) (p enc : String) (eo aa : Bool), fs.exists p = false →
        mkFileHandler fs p enc false eo aa = .error .fileNotFoundError) ∧
    (∀ (fs : FS) (p enc : String) (nfo aa : Bool), fs.exists p = true →
        mkFileHandler fs p enc nfo false aa = .error .fileExistsError) := by
  have hopen : ∀ (fs : FS) (p enc : String) (cf aa : Bool),
      (FileHandler.mk none cf p enc aa).openFile (fs.set p []) "a+"
        = .ok (FileHandler.mk (some ⟨"a+", false, 0⟩) cf p enc aa, fs.set p []) := by
    intro fs p enc cf aa
    unfold FileHandler.openFile
    rw [if_neg]
    · simp only [FileHandler.closeFileH]
      rw [show strLower "a+" = "a+" from rfl,
        pyOpen_on_cleared fs p "a+" (by decide) (by decide)]
    · intro hc
      simpa [FileHandler.fileMode] using hc.2
  refine ⟨?_, ?_, ?_⟩
  · intro fs p enc eo aa hex
    unfold mkFileHandler
    rw [if_pos hex]
    simp only [Bool.true_eq_false, if_false]
    rw [hopen fs p enc true aa]
    exact ⟨_, _, rfl, rfl, rfl, rfl, rfl, FS.get_set_same fs p []⟩
  · intro fs p enc eo aa hex
    unfold mkFileHandler
    rw [if_pos hex]
    rfl
  · intro fs p enc nfo aa hex
    unfold mkFileHandler
    rw [if_neg (by simp [hex])]
    rfl

/-- C9, witness: construction on a concrete missing path with
`not_found_ok=true` yields a created, open session. -/
theorem construction_cases_witness :
    ∃ h fs', mkFileHandler ⟨[]⟩ "/d/new.txt" "utf-8" true true false = .ok (h, fs') ∧
      h.created_file = true ∧ h.filepath = "/d/new.txt" ∧ h.fileMode = some "a+" ∧
      h.closedB = false ∧ fs'.get "/d/new.txt" = some [] :=
  construction_cases.1 ⟨[]⟩ "/d/new.txt" "utf-8" true false (by decide)

/-! ### Claim C5: write/read round trips -/

/-- C5: Write followed by Read round-trips for each structured format:
the mapping through `.json`, `.yaml` and `.toml` sessions, the nested
string rows through a `.csv` session, and the int-bearing mapping
through a `.pickle` session. -/
theorem write_read_round_trips :
    writeReadTrip "/d/test.json" sampleMap = .ok sampleMap ∧
    writeReadTrip "/d/test.csv" sampleRows = .ok sampleRows ∧
    writeReadTrip "/d/test.yaml" sampleMap = .ok sampleMap ∧
    writeReadTrip "/d/test.toml" sampleMap = .ok sampleMap ∧
    writeReadTrip "/d/test.pickle" samplePickle = .ok samplePickle := by
  refine ⟨by decide, by decide, by decide, by decide, by decide⟩

/-! ### Claim C2: copy destination validation -/

/-- C2, counterexample: copying into the file's own directory without a
new filename does not fail — it succeeds and resolves the collision to
`t_1.txt`.  Only a destination carrying an extension (such as the file's
own full path) raises the destination `FileError`. -/
theorem copy_own_dir_counterexample :
    copyOwnDirTrace = .ok ("/d/t_1.txt", true) ∧
    (∀ e, copyOwnDirTrace ≠ .error e) := by
  refine ⟨by decide, ?_⟩
  intro e he
  rw [show copyOwnDirTrace = .ok ("/d/t_1.txt", true) from by decide] at he
  exact Except.noConfusion he

/-- C2 (amended): a Copy whose destination path carries an extension
component — e.g. the session's own file path — fails with the
destination `FileError`; a Copy into the file's own directory without a
filename succeeds, suffixing the name to avoid the collision. -/
theorem copy_destination_amended :
    (∀ (h : FileHandler) (fs : FS) (dest : String) (fn : Option String) (sfx : String)
        (fuel : Nat), (pathSplitExt dest).2 ≠ "" →
        h.makeCopy fs dest fn sfx fuel = .error (.fileError "Destination cannot be a file")) ∧
    copyOwnDirTrace = .ok ("/d/t_1.txt", true) := by
  refine ⟨?_, by decide⟩
  intro h fs dest fn sfx fuel hext
  unfold FileHandler.makeCopy
  rw [if_pos hext]

/-- C2, witness: the amended rejection applied to the session's own file
path as destination. -/
theorem copy_destination_amended_witness :
    (FileHandler.mk (some ⟨"a+", false, 0⟩) false "/d/t.txt" "utf-8" false).makeCopy
        ⟨[("/d/t.txt", [])]⟩ "/d/t.txt" none "1" 10
      = .error (.fileError "Destination cannot be a file") :=
  copy_destination_amended.1 (FileHandler.mk (some ⟨"a+", false, 0⟩) false "/d/t.txt" "utf-8" false)
    ⟨[("/d/t.txt", [])]⟩ "/d/t.txt" none "1" 10 (by decide)

/-! ### Claim C3: delete -/

/-- C3: Delete on an existing file removes it from disk and nulls the
handle, and a second Delete on the now-absent file returns without error
(idempotent, warning only) — but the session's internal path is **not**
nulled: the source's `self.file_path = None` assigns a never-read
attribute (the real attribute is `filepath`), so `filepath` still holds
`/d/t.txt` after deletion.  This evaluates the code at the failing
input. -/
theorem delete_keeps_filepath :
    deleteTrace = .ok ("/d/t.txt", none, false, "/d/t.txt") ∧
    deleteTrace ≠ .ok ("/d/t.txt", none, false, "") := by
  exact ⟨by decide, by decide⟩

/-! ### Claim C4: collision resolution -/

/-- C4, counterexample: with string suffix `"copy"` and `t.txt`,
`t_copy.txt`, `t_copy_1.txt` taken, the code produces `t_copy_1_2.txt`
(the counter is appended to the **accumulated** suffix), while the
claim's scheme — a counter appended to the original suffix — would pick
`t_copy_2.txt`. -/
theorem collision_resolution_counterexample :
    copyStringSuffixTrace = .ok "/d/t_copy_1_2.txt" ∧
    firstUnused collisionFS (claimCandidates "/d" "t" ".txt" (.str "copy")) 0 10
      = some "/d/t_copy_2.txt" ∧
    ("/d/t_copy_1_2.txt" : String) ≠ "/d/t_copy_2.txt" := by
  exact ⟨by decide, by decide, by decide⟩

/-- The loop's suffix state after `k` collisions, shifted: entering the
loop with `s0.iter k` and counter `k` behaves like the original loop at
iteration `k`. -/
theorem copyLoop_spec (fs : FS) (dest base ext : String) (s0 : Sfx) :
    ∀ (fuel k : Nat) (p : String),
      copyLoop fs dest base ext (s0.iter k) k fuel = some p →
      ∃ i, k ≤ i ∧ i < k + fuel ∧ p = codeCandidates dest base ext s0 i ∧
        fs.exists p = false ∧
        ∀ j, k ≤ j → j < i → fs.exists (codeCandidates dest base ext s0 j) = true := by
  intro fuel
  induction fuel with
  | zero =>
    intro k p h
    exact absurd h (by simp [copyLoop])
  | succ n ih =>
    intro k p h
    simp only [copyLoop] at h
    by_cases hex :
        fs.exists (pathJoin dest (base ++ "_" ++ (s0.iter k).text ++ ext)) = true
    · rw [if_pos hex] at h
      have hb : (s0.iter k).bump (k + 1) = s0.iter (k + 1) := rfl
      rw [hb] at h
      obtain ⟨i, hk, hlt, hp, hnf, hall⟩ := ih (k + 1) p h
      refine ⟨i, by omega, by omega, hp, hnf, ?_⟩
      intro j hj hji
      rcases eq_or_lt_of_le hj with rfl | hjlt
      · exact hex
      · exact hall j hjlt hji
    · rw [if_neg hex] at h
      obtain rfl : pathJoin dest (base ++ "_" ++ (s0.iter k).text ++ ext) = p := by
        injection h
      refine ⟨k, le_refl k, by omega, rfl, by simpa using hex, ?_⟩
      intro j hj hji
      omega

/-- The loop's suffix stays an integer and is incremented by one per
collision when it starts numeric. -/
theorem sfx_iter_int (n : Int) : ∀ i : Nat, (Sfx.int n).iter i = Sfx.int (n + i) := by
  intro i
  induction i with
  | zero => simp [Sfx.iter]
  | succ j ih =>
    show ((Sfx.int n).iter j).bump (j + 1) = Sfx.int (n + (j + 1 : Nat))
    rw [ih]
    show Sfx.int (n + j + 1) = _
    congr 1
    push_cast
    ring

/-- The loop's suffix stays a string when it starts as one. -/
theorem sfx_iter_str (s : String) : ∀ i : Nat, ∃ t, (Sfx.str s).iter i = Sfx.str t := by
  intro i
  induction i with
  | zero => exact ⟨s, rfl⟩
  | succ j ih =>
    obtain ⟨t, ht⟩ := ih
    exact ⟨t ++ "_" ++ toString (j + 1), by
      show ((Sfx.str s).iter j).bump (j + 1) = _
      rw [ht]
      rfl⟩

/-- C4 (amended): while a candidate destination path exists, `_<suffix>`
is appended before the extension and the loop stops at the first unused
name; a numeric suffix is incremented on each collision (candidates
`base_n`, `base_(n+1)`, …); but for a string suffix the incrementing
counter is appended to the *accumulated* suffix, producing `base_s`,
`base_s_1`, `base_s_1_2`, `base_s_1_2_3`, … rather than `base_s_1`,
`base_s_2`, …. -/
theorem collision_resolution_amended :
    (∀ (fs : FS) (dest base ext : String) (s0 : Sfx) (fuel : Nat) (p : String),
        copyLoop fs dest base ext s0 0 fuel = some p →
        ∃ i, i < fuel ∧ p = codeCandidates dest base ext s0 i ∧
          fs.exists p = false ∧
          ∀ j, j < i → fs.exists (codeCandidates dest base ext s0 j) = true) ∧
    (∀ (n : Int) (i : Nat), ((Sfx.int n).iter i).text = toString (n + i)) ∧
    (∀ (s : String) (i : Nat),
        ((Sfx.str s).iter (i + 1)).text
          = ((Sfx.str s).iter i).text ++ "_" ++ toString (i + 1)) := by
  refine ⟨?_, ?_, ?_⟩
  · intro fs dest base ext s0 fuel p h
    obtain ⟨i, _, hlt, hp, hnf, hall⟩ :=
      copyLoop_spec fs dest base ext s0 fuel 0 p (by simpa [Sfx.iter] using h)
    exact ⟨i, by omega, hp, hnf, fun j hji => hall j (Nat.zero_le j) hji⟩
  · intro n i
    rw [sfx_iter_int n i]
    rfl
  · intro s i
    obtain ⟨t, ht⟩ := sfx_iter_str s i
    rw [show (Sfx.str s).iter (i + 1) = ((Sfx.str s).iter i).bump (i + 1) from rfl, ht]
    rfl

/-- C4, witness: the characterization applied to the concrete collision
scenario, where the loop stops at index 2 with `t_copy_1_2.txt`. -/
theorem collision_resolution_amended_witness :
    ∃ i, i < 10 ∧
      ("/d/t_copy_1_2.txt" : String) = codeCandidates "/d" "t" ".txt" (.str "copy") i ∧
      collisionFS.exists "/d/t_copy_1_2.txt" = false ∧
      ∀ j, j < i → collisionFS.exists (codeCandidates "/d" "t" ".txt" (.str "copy") j) = true :=
  collision_resolution_amended.1 collisionFS "/d" "t" ".txt" (.str "copy") 10
    "/d/t_copy_1_2.txt" (by decide)

/-! ### Claim C6: json replaces, pickle forces binary append -/

/-- C6, counterexample: a json Write does **not** always replace prior
content with the new document.  First, after a `write_to_file(d1, 'w')`
the handle is open in exactly `w`, so a second `write_to_file(d2, 'w')`
hits the open-mode shortcut: neither the reopen nor the internal clear
truncates, and the file ends up holding both serialised documents.
Second, in the binary write modes the write does not succeed at all:
`json.dumps` produces `str`, which cannot be written to the `b`-mode
handle, so the call raises `FileError`. -/
theorem json_write_claim_counterexample :
    (jsonDoubleWTrace
      = .ok (some [Chunk.jsonDoc sampleMap, Chunk.jsonDoc (Value.map [("b", .str "2")])]) ∧
    jsonDoubleWTrace ≠ .ok (some [Chunk.jsonDoc (Value.map [("b", .str "2")])])) ∧
    jsonWbTrace = .error (.fileError "File cannot be written into.") := by
  exact ⟨⟨by decide, by decide⟩, by decide⟩

/-- C6 (amended): on a `.json` session, Write requires the content to be
a mapping (else `TypeError`), clears the file first and serialises the
full mapping — replacing prior content in every requested **text** write
mode (`w`, `w+`, `a`, `a+`), **except** when the mode is `w` and the
handle is already open in `w` (then the truncate-on-open shortcut is
skipped; see the counterexample); in the binary write modes (`wb`,
`wb+`, `ab`, `ab+`) the serialised text cannot be written to the binary
handle and the call raises `FileError` instead of replacing.  On a
`.pickle` session, Write forces the `ab+` binary append mode regardless
of the requested write mode and appends exactly one serialised object
per call. -/
theorem json_pickle_write_amended :
    (∀ (fs : FS) (p enc m : String) (hd? : Option Handle) (cf aa : Bool)
        (kvs : List (String × Value)), pathFiletype p = "json" → m ∈ textWriteModes →
        ¬(m = "w" ∧ (FileHandler.mk hd? cf p enc aa).closedB = false ∧
          (FileHandler.mk hd? cf p enc aa).fileMode = some "w") →
        (FileHandler.mk hd? cf p enc aa).writeToFile fs (Value.map kvs) m
          = .ok (FileHandler.mk (some ⟨m, false, 1⟩) cf p enc aa,
              fs.set p [Chunk.jsonDoc (Value.map kvs)])) ∧
    (∀ (fs : FS) (p enc m : String) (hd? : Option Handle) (cf aa : Bool)
        (kvs : List (String × Value)), pathFiletype p = "json" → m ∈ binWriteModes →
        (FileHandler.mk hd? cf p enc aa).writeToFile fs (Value.map kvs) m
          = .error (.fileError "File cannot be written into.")) ∧
    (∀ (fs : FS) (p enc m : String) (hd? : Option Handle) (cf aa : Bool) (content : Value),
        pathFiletype p = "json" → m ∈ writeModes → (∀ kvs, content ≠ Value.map kvs) →
        (FileHandler.mk hd? cf p enc aa).writeToFile fs content m = .error .typeError) ∧
    (∀ (fs : FS) (p enc m : String) (hd? : Option Handle) (cf aa : Bool) (v : Value),
        pathFiletype p = "pickle" → m ∈ writeModes →
        ∃ c₁ : List Chunk,
          (FileHandler.mk hd? cf p enc aa).writeToFile fs v m
            = .ok (FileHandler.mk (some ⟨"ab+", false, c₁.length + 1⟩) cf p enc aa,
                fs.set p (c₁ ++ [Chunk.pickleObj v]))) :=
  ⟨fun fs p enc m hd? cf aa kvs hft hm hnw =>
      json_write_replaces fs p enc m hd? cf aa kvs hft (textWriteModes_sub hm)
        (textWriteModes_no_b hm) hnw,
    fun fs p enc m hd? cf aa kvs hft hm =>
      json_write_binary fs p enc m hd? cf aa kvs hft (binWriteModes_sub hm)
        (binWriteModes_b hm),
    fun fs p enc m hd? cf aa content hft hm hnm =>
      json_write_type_error fs p enc m hd? cf aa content hft hm hnm,
    fun fs p enc m hd? cf aa v hft hm =>
      pickle_write_forces fs p enc m hd? cf aa v hft hm⟩

/-- C6, witness: the amended behaviour at concrete inputs — a json write
in mode `a+` over stale content replaces it; a json write in binary mode
`wb` raises `FileError`; a non-dict json write raises `TypeError`; a
pickle write in mode `a+` is forced to `ab+` and appends one object
after the existing one. -/
theorem json_pickle_write_amended_witness :
    (FileHandler.mk (some ⟨"a+", false, 0⟩) false "/d/t.json" "utf-8" false).writeToFile
        ⟨[("/d/t.json", [Chunk.raw "stale"])]⟩ (Value.map [("a", .str "1")]) "a+"
      = .ok (FileHandler.mk (some ⟨"a+", false, 1⟩) false "/d/t.json" "utf-8" false,
          (FS.mk [("/d/t.json", [Chunk.raw "stale"])]).set "/d/t.json"
            [Chunk.jsonDoc (Value.map [("a", .str "1")])]) ∧
    (FileHandler.mk (some ⟨"a+", false, 0⟩) false "/d/t.json" "utf-8" false).writeToFile
        ⟨[("/d/t.json", [Chunk.raw "stale"])]⟩ (Value.map [("a", .str "1")]) "wb"
      = .error (.fileError "File cannot be written into.") ∧
    (FileHandler.mk (some ⟨"a+", false, 0⟩) false "/d/t.json" "utf-8" false).writeToFile
        ⟨[("/d/t.json", [])]⟩ (Value.str "nope") "a+" = .error .typeError ∧
    ∃ c₁ : List Chunk,
      (FileHandler.mk (some ⟨"a+", false, 1⟩) false "/d/t.pickle" "utf-8" false).writeToFile
          ⟨[("/d/t.pickle", [Chunk.pickleObj (.int 1)])]⟩ (.int 2) "a+"
        = .ok (FileHandler.mk (some ⟨"ab+", false, c₁.length + 1⟩) false "/d/t.pickle"
              "utf-8" false,
            (FS.mk [("/d/t.pickle", [Chunk.pickleObj (.int 1)])]).set "/d/t.pickle"
              (c₁ ++ [Chunk.pickleObj (.int 2)])) :=
  ⟨json_pickle_write_amended.1 ⟨[("/d/t.json", [Chunk.raw "stale"])]⟩ "/d/t.json" "utf-8"
      "a+" (some ⟨"a+", false, 0⟩) false false [("a", .str "1")] (by decide) (by decide)
      (fun hc => by exact absurd hc.1 (by decide)),
    json_pickle_write_amended.2.1 ⟨[("/d/t.json", [Chunk.raw "stale"])]⟩ "/d/t.json"
      "utf-8" "wb" (some ⟨"a+", false, 0⟩) false false [("a", .str "1")] (by decide)
      (by decide),
    json_pickle_write_amended.2.2.1 ⟨[("/d/t.json", [])]⟩ "/d/t.json" "utf-8" "a+"
      (some ⟨"a+", false, 0⟩) false false (Value.str "nope") (by decide) (by decide)
      (fun kvs h => Value.noConfusion h),
    json_pickle_write_amended.2.2.2 ⟨[("/d/t.pickle", [Chunk.pickleObj (.int 1)])]⟩
      "/d/t.pickle" "utf-8" "a+" (some ⟨"a+", false, 1⟩) false false (.int 2)
      (by decide) (by decide)⟩

/-! ### Claim C7: update_json -/

/-- C7: `update_json` on a `.json` session reads the existing mapping,
treats any read failure as an empty mapping, shallow-merges the new
mapping over it with dict-update semantics (new keys override existing
ones), and performs a full Write in overwrite mode `w`, leaving the file
holding exactly the merged mapping and the handle open in `w`; on a
session with any non-JSON extension it fails with the handler's
`FileError`. -/
theorem update_json_spec :
    (∀ (fs : FS) (p enc : String) (hd? : Option Handle) (cf aa : Bool)
        (old new : List (String × Value)) (h₁ : FileHandler) (fs₁ : FS),
        pathFiletype p = "json" →
        (FileHandler.mk hd? cf p enc aa).readFile fs "r+" = .ok (Value.map old, h₁, fs₁) →
        (FileHandler.mk hd? cf p enc aa).updateJson fs new
          = .ok (FileHandler.mk (some ⟨"w", false, 1⟩) cf p enc aa,
              fs.set p [Chunk.jsonDoc (Value.map (dictUpdate old new))])) ∧
    (∀ (fs : FS) (p enc : String) (hd? : Option Handle) (cf aa : Bool)
        (new : List (String × Value)) (e : PyErr),
        pathFiletype p = "json" →
        (FileHandler.mk hd? cf p enc aa).readFile fs "r+" = .error e →
        (FileHandler.mk hd? cf p enc aa).updateJson fs new
          = .ok (FileHandler.mk (some ⟨"w", false, 1⟩) cf p enc aa,
              fs.set p [Chunk.jsonDoc (Value.map (dictUpdate [] new))])) ∧
    (∀ (fs : FS) (h : FileHandler) (new : List (String × Value)),
        h.filetype ≠ "json" →
        ∃ msg, h.updateJson fs new = .error (.fileError msg)) := by
  refine ⟨?_, ?_, ?_⟩
  · intro fs p enc hd? cf aa old new h₁ fs₁ hft hr
    unfold FileHandler.updateJson
    rw [if_pos (show FileHandler.filetype (FileHandler.mk hd? cf p enc aa) = "json" from hft),
      hr]
    obtain ⟨hfs, pos, hh⟩ := readFile_json_inv fs p enc hd? cf aa _ h₁ fs₁ hft hr
    rw [hh, hfs]
    show (FileHandler.mk (some ⟨"r+", false, pos⟩) cf p enc aa).writeToFile fs
        (Value.map (dictUpdate old new)) "w" = _
    exact json_write_replaces fs p enc "w" (some ⟨"r+", false, pos⟩) cf aa
      (dictUpdate old new) hft (by decide) (by decide)
      (fun hc => by simpa [FileHandler.fileMode] using hc.2.2)
  · intro fs p enc hd? cf aa new e hft hr
    unfold FileHandler.updateJson
    rw [if_pos (show FileHandler.filetype (FileHandler.mk hd? cf p enc aa) = "json" from hft),
      hr]
    rcases hop : (FileHandler.mk hd? cf p enc aa).openFile fs "r+" with e₂ | ⟨h₂, fs₂⟩
    · show ((FileHandler.mk hd? cf p enc aa).closeFileH).writeToFile fs
          (Value.map (dictUpdate [] new)) "w" = _
      rw [closeFileH_mk]
      exact json_write_replaces fs p enc "w" (hdClose hd?) cf aa (dictUpdate [] new) hft
        (by decide) (by decide)
        (fun hc => hdClose_not_open hd? cf p enc aa "w" ⟨hc.2.1, hc.2.2⟩)
    · obtain ⟨pos₂, he, hf⟩ := openFile_rplus_inv _ fs h₂ fs₂ hop
      show h₂.writeToFile fs₂ (Value.map (dictUpdate [] new)) "w" = _
      rw [he, hf]
      exact json_write_replaces fs p enc "w" (some ⟨"r+", false, pos₂⟩) cf aa
        (dictUpdate [] new) hft (by decide) (by decide)
        (fun hc => by simpa [FileHandler.fileMode] using hc.2.2)
  · intro fs h new hne
    unfold FileHandler.updateJson
    rw [if_neg hne]
    exact ⟨_, rfl⟩

/-- C7, witness: updating a concrete `.json` session holding
`{"test": "123", "check": "ok"}` with `{"check": "no", "extra": "x"}`
overrides `check` in place and appends `extra`, writing in mode `w`. -/
theorem update_json_spec_witness :
    (FileHandler.mk (some ⟨"a+", false, 1⟩) false "/d/t.json" "utf-8" false).updateJson
        ⟨[("/d/t.json", [Chunk.jsonDoc sampleMap])]⟩ [("check", .str "no"), ("extra", .str "x")]
      = .ok (FileHandler.mk (some ⟨"w", false, 1⟩) false "/d/t.json" "utf-8" false,
          (FS.mk [("/d/t.json", [Chunk.jsonDoc sampleMap])]).set "/d/t.json"
            [Chunk.jsonDoc (Value.map (dictUpdate [("test", .str "123"), ("check", .str "ok")]
              [("check", .str "no"), ("extra", .str "x")]))]) :=
  update_json_spec.1 ⟨[("/d/t.json", [Chunk.jsonDoc sampleMap])]⟩ "/d/t.json" "utf-8"
    (some ⟨"a+", false, 1⟩) false false [("test", .str "123"), ("check", .str "ok")]
    [("check", .str "no"), ("extra", .str "x")]
    (FileHandler.mk (some ⟨"r+", false, 1⟩) false "/d/t.json" "utf-8" false)
    ⟨[("/d/t.json", [Chunk.jsonDoc sampleMap])]⟩ (by decide) (by decide)

/-! ### Claim C10: make_copy closes the copy's handle -/

/-- C10: every successful `make_copy` returns a session whose underlying
file handle has been closed before the call returns — the handle exists
(construction of the copy opened it) but is marked closed, so the caller
must reopen it before using it directly. -/
theorem makeCopy_tail_closed (h : FileHandler) (fs : FS) (fullPath : String)
    (hS dst : FileHandler) (fs' : FS)
    (hok : ((do
        let (dst, fs) ← mkFileHandler fs fullPath h.encoding true false false
        let (content, hSelf, fs) ← h.readFile fs "r+"
        let (dst, fs) ← dst.writeToFile fs content "w+"
        Except.ok (hSelf, dst.closeFileH, fs))
          : Except PyErr (FileHandler × FileHandler × FS)) = .ok (hS, dst, fs')) :
    dst.closedB = true ∧ dst.file.isSome = true := by
  rcases e1 : mkFileHandler fs fullPath h.encoding true false false with e | ⟨dst₁, fs₁⟩
  · rw [e1, bindErr] at hok
    exact Except.noConfusion hok
  · rw [e1, bindOk] at hok
    dsimp only [] at hok
    rcases e2 : h.readFile fs₁ "r+" with e | ⟨content, hSelf₁, fs₂⟩
    · rw [e2, bindErr] at hok
      exact Except.noConfusion hok
    · rw [e2, bindOk] at hok
      dsimp only [] at hok
      rcases e3 : dst₁.writeToFile fs₂ content "w+" with e | ⟨dst₂, fs₃⟩
      · rw [e3, bindErr] at hok
        exact Except.noConfusion hok
      · rw [e3, bindOk] at hok
        rw [Except.ok.injEq, Prod.mk.injEq, Prod.mk.injEq] at hok
        obtain ⟨hd, hfile, hcl⟩ := writeToFile_ok_file dst₁ fs₂ content "w+" dst₂ fs₃ e3
        have hcf := closeFileH_of_open dst₂ hd hfile hcl
        rw [← hok.2.1]
        constructor
        · unfold FileHandler.closedB
          rw [hcf]
        · rw [Option.isSome_iff_exists]
          exact ⟨_, hcf⟩

theorem make_copy_returns_closed (h : FileHandler) (fs : FS) (dest : String)
    (fn : Option String) (sfx : String) (fuel : Nat) (hS dst : FileHandler) (fs' : FS)
    (hok : h.makeCopy fs dest fn sfx fuel = .ok (hS, dst, fs')) :
    dst.closedB = true ∧ dst.file.isSome = true := by
  unfold FileHandler.makeCopy at hok
  by_cases hext : (pathSplitExt dest).2 ≠ ""
  · rw [if_pos hext] at hok
    exact Except.noConfusion hok
  · rw [if_neg hext] at hok
    repeat'
      first
        | split at hok
        | dsimp only [] at hok
    all_goals
      first
        | exact Except.noConfusion hok
        | exact makeCopy_tail_closed h fs _ hS dst fs' hok

/-- C10, witness: a concrete copy of `/d/t.txt` into `/e` — the returned
session holds a handle (mode `w+`, the copy write) that is closed. -/
theorem make_copy_returns_closed_witness :
    (FileHandler.mk (some ⟨"w+", true, 0⟩) true "/e/t.txt" "utf-8" false).closedB = true ∧
    (FileHandler.mk (some ⟨"w+", true, 0⟩) true "/e/t.txt" "utf-8" false).file.isSome = true :=
  make_copy_returns_closed
    (FileHandler.mk (some ⟨"a+", false, 0⟩) false "/d/t.txt" "utf-8" false)
    ⟨[("/d/t.txt", [])]⟩ "/e" none "1" 10
    (FileHandler.mk (some ⟨"r+", false, 0⟩) false "/d/t.txt" "utf-8" false)
    (FileHandler.mk (some ⟨"w+", true, 0⟩) true "/e/t.txt" "utf-8" false)
    ⟨[("/d/t.txt", []), ("/e/t.txt", [])]⟩ (by decide)

end SFH
